import Mathlib

/-!
Token sample: allowance service and ERC-20 bootstrap.

A shallow embedding of

* `samples/token/service/allowance/allowance.go`
  (`Service.GetAllowance`, `Service.Approve`, `Service.TransferFrom`), and
* `samples/token/chaincode/erc20/erc20.go` (`Token`, the `Init` handler registered by `New`).

A Go handler `func(ctx, req) (resp, error)` that mutates the invocation context becomes a
function `Context → Req → Except Error Resp × Context`: the second component is the context
(buffered writes and events included) at the moment the handler returns, whether it returns
an error or not.  Go `uint64` values are `U64 = Fin (2 ^ 64)`, whose `+` and `-` are the
natural-number operations reduced modulo `2 ^ 64`.

The packages `account`, `balance` and `config`, the generated request types with their
`Validate` methods, and the state and event mappings of the `allowance` package are not part
of the two source files.  Request validation and identity resolution are inputs of the model
(`Validators`, `Context.Invoker`); the key-value collections, the balance store, the token
registry and the atomic invocation boundary follow the specification, and every such
definition says so in its documentation.
-/

/-- Go `uint64`: arithmetic is modulo `2 ^ 64`. -/
abbrev U64 : Type := Fin (2 ^ 64)

/-- Error values.  The named constructors are the sentinel errors of the packages involved,
`other` is any other error value (a validation failure, an identity-resolution failure) and
`wrap msg err` is `fmt.Errorf(msg + ": %w", err)`. -/
inductive Error where
  | ErrKeyNotFound
  | ErrOwnerOnly
  | ErrAllowanceInsufficient
  | ErrInsufficientBalance
  | ErrTokenAlreadyExists
  | other (msg : String)
  | wrap (msg : String) (err : Error)
deriving DecidableEq, Repr

/-- Go `errors.Is(err, target)`: `err` or an error it wraps equals `target`. -/
def Error.Is : Error → Error → Bool
  | .wrap msg err, target => decide (Error.wrap msg err = target) || err.Is target
  | err, target => decide (err = target)

namespace account

/-- The result type of `GetInvokerAddress`; only its field `Address` is used. -/
structure AddressId where
  Address : String
deriving DecidableEq, Repr

end account

namespace allowance

/-- Primary key of an allowance: the request type of `GetAllowance`. -/
structure AllowanceId where
  Owner : String
  Spender : String
  Symbol : String
  Group : String
deriving DecidableEq, Repr

/-- A stored allowance record. -/
structure Allowance where
  Owner : String
  Spender : String
  Symbol : String
  Group : String
  Amount : U64
deriving DecidableEq, Repr

/-- Request of `Approve`. -/
structure ApproveRequest where
  Owner : String
  Spender : String
  Symbol : String
  Group : String
  Amount : U64
deriving DecidableEq, Repr

/-- Request of `TransferFrom`. -/
structure TransferFromRequest where
  Owner : String
  Recipient : String
  Symbol : String
  Group : String
  Amount : U64
deriving DecidableEq, Repr

/-- Response of `TransferFrom`. -/
structure TransferFromResponse where
  Owner : String
  Recipient : String
  Amount : U64
deriving DecidableEq, Repr

/-- Events of the allowance service: `Approved{Owner, Spender, Amount}` and
`TransferredFrom{Owner, Spender, Recipient, Amount}`. -/
inductive Event where
  | Approved (Owner Spender : String) (Amount : U64)
  | TransferredFrom (Owner Spender Recipient : String) (Amount : U64)
deriving DecidableEq, Repr

/-- The primary key under which a record is stored. -/
def Allowance.Id (a : Allowance) : AllowanceId :=
  { Owner := a.Owner, Spender := a.Spender, Symbol := a.Symbol, Group := a.Group }

end allowance

namespace balance

/-- Key of a balance entry. -/
structure BalanceId where
  Address : String
  Symbol : String
  Group : String
deriving DecidableEq, Repr

/-- Modelled from the spec: the `Balance` record type of package `balance`, which is not among
the source files.  Section 3: a balance is keyed by (Account, Symbol, Group) and holds an
Amount that is a non-negative integer. -/
structure Balance where
  Address : String
  Symbol : String
  Group : String
  Amount : Nat
deriving DecidableEq, Repr

/-- The argument `TransferFrom` builds for `Store.Transfer`. -/
structure TransferOperation where
  Sender : String
  Recipient : String
  Symbol : String
  Group : String
  Amount : U64
deriving DecidableEq, Repr

/-- The key under which a balance record is stored. -/
def Balance.Id (b : Balance) : BalanceId :=
  { Address := b.Address, Symbol := b.Symbol, Group := b.Group }

end balance

namespace config

/-- The type of `erc20.Token`.  The source sets `Name`, `Symbol`, `Decimals` and
`TotalSupply`; `Group` keeps its zero value. -/
structure CreateTokenTypeRequest where
  Name : String
  Symbol : String
  Group : String
  Decimals : Nat
  TotalSupply : U64
deriving DecidableEq, Repr

/-- Modelled from the spec: the `TokenType` record of package `config`, which is not among the
source files.  Section 3: `{Symbol, Group, Decimals, TotalSupply}`, identified by
(Symbol, Group). -/
structure TokenType where
  Symbol : String
  Group : String
  Decimals : Nat
  TotalSupply : U64
deriving DecidableEq, Repr

end config

/-- The world state the handlers read and write. -/
structure Ledger where
  Allowances : List allowance.Allowance
  Balances : List balance.Balance
  Tokens : List config.TokenType
deriving DecidableEq, Repr

/-- What a handler sees through `router.Context`: the outcome of resolving the invoker's
identity, the state with the writes made so far, and the events set so far (oldest first). -/
structure Context where
  Invoker : Except Error account.AddressId
  State : Ledger
  Events : List allowance.Event

/-- The `Validate` methods of the generated request types, called by `router.ValidateRequest`.
They are not among the source files and are inputs of the model: `none` is a `nil` error. -/
structure Validators where
  AllowanceId : allowance.AllowanceId → Option Error
  ApproveRequest : allowance.ApproveRequest → Option Error
  TransferFromRequest : allowance.TransferFromRequest → Option Error

/-- Modelled from the spec: a keyed collection of the state store, section 6
`StateGet(key) -> (value, found)`.  The store itself is not among the source files.  `key`
computes the primary key of a record; the first record with key `k` is the stored value. -/
def StateGet {α κ : Type} [DecidableEq κ] (key : α → κ) (k : κ) (s : List α) : Option α :=
  s.find? (fun a => decide (key a = k))

/-- Modelled from the spec: section 6 `StatePut(key, value)` on a keyed collection: the record
stored under the key of `a` is overwritten by `a`, and `a` is added when there is none. -/
def StatePut {α κ : Type} [DecidableEq κ] (key : α → κ) (a : α) : List α → List α
  | [] => [a]
  | b :: bs => if key b = key a then a :: bs else b :: StatePut key a bs

namespace account

/-- Modelled from the spec: `Account.GetInvokerAddress(ctx, nil)` of package `account`, which
is not among the source files.  Section 6: `CurrentCallerAddress() -> Account`, deterministic
per invocation; the outcome is the `Invoker` field of the context. -/
def GetInvokerAddress (ctx : Context) : Except Error AddressId :=
  ctx.Invoker

end account

namespace allowance

/-- Modelled from the spec: `State(ctx).Get(id, &Allowance{})`; the state mapping of the
package is not among the source files.  Section 3: allowances are keyed by
(Owner, Spender, Symbol, Group); an absent key is reported as `state.ErrKeyNotFound`. -/
def State.Get (ctx : Context) (id : AllowanceId) : Except Error Allowance :=
  match StateGet Allowance.Id id ctx.State.Allowances with
  | some a => .ok a
  | none => .error .ErrKeyNotFound

/-- Modelled from the spec: `State(ctx).Put(allowance)`: the record is written under its own
primary key.  The write cannot fail in this model. -/
def State.Put (ctx : Context) (a : Allowance) : Context :=
  { ctx with State := { ctx.State with Allowances := StatePut Allowance.Id a ctx.State.Allowances } }

/-- Modelled from the spec: `Event(ctx).Set(event)`, section 6 `EmitEvent`: the event is
buffered in the context.  Setting an event cannot fail in this model. -/
def Event.Set (ctx : Context) (e : Event) : Context :=
  { ctx with Events := ctx.Events ++ [e] }

end allowance

namespace balance

/-- Modelled from the spec: `Get(account, symbol, group) -> Amount` of the balance store
(package `balance` is not among the source files).  Section 4.1: the stored amount, or 0 if
the key is absent. -/
def Store.Get (ctx : Context) (id : BalanceId) : Nat :=
  match StateGet Balance.Id id ctx.State.Balances with
  | some b => b.Amount
  | none => 0

/-- Modelled from the spec: the write of one balance entry under its key (section 6
`StatePut`), used by `Add`, `Subtract` and `Transfer` of the balance store. -/
def Store.Put (ctx : Context) (id : BalanceId) (amount : Nat) : Context :=
  let b : Balance :=
    { Address := id.Address, Symbol := id.Symbol, Group := id.Group, Amount := amount }
  { ctx with State := { ctx.State with Balances := StatePut Balance.Id b ctx.State.Balances } }

/-- Modelled from the spec: `NewStore(ctx).Add(address, token, amount)` of package `balance`.
Section 4.1: credits `amount` to the balance of `address` for the (symbol, group) of the
token type. -/
def Store.Add (ctx : Context) (address : String) (token : config.TokenType) (amount : U64) :
    Except Error Unit × Context :=
  let id : BalanceId := { Address := address, Symbol := token.Symbol, Group := token.Group }
  (.ok (), Store.Put ctx id (Store.Get ctx id + amount.val))

/-- Modelled from the spec: `Subtract(account, symbol, group, amount)` of the balance store.
Section 4.1: fails with `InsufficientBalance` if the current balance is below `amount`,
otherwise decrements and persists. -/
def Store.Subtract (ctx : Context) (id : BalanceId) (amount : U64) :
    Except Error Unit × Context :=
  if Store.Get ctx id < amount.val then
    (.error .ErrInsufficientBalance, ctx)
  else
    (.ok (), Store.Put ctx id (Store.Get ctx id - amount.val))

/-- Modelled from the spec: `Store.Transfer(ctx, op)` of package `balance`.  Section 4.1:
debits the sender and credits the recipient; fails with `InsufficientBalance` if the sender's
balance is below the amount; validate-then-mutate ordering: both new values are computed from
the balances read before any write, the failure comes before any write, and then the sender's
entry and the recipient's entry are written; any amount from 0 up is accepted. -/
def Store.Transfer (ctx : Context) (op : TransferOperation) : Except Error Unit × Context :=
  let sender : BalanceId := { Address := op.Sender, Symbol := op.Symbol, Group := op.Group }
  let recipient : BalanceId :=
    { Address := op.Recipient, Symbol := op.Symbol, Group := op.Group }
  let senderBalance := Store.Get ctx sender
  let recipientBalance := Store.Get ctx recipient
  if senderBalance < op.Amount.val then
    (.error .ErrInsufficientBalance, ctx)
  else
    (.ok (),
      Store.Put (Store.Put ctx sender (senderBalance - op.Amount.val)) recipient
        (recipientBalance + op.Amount.val))

end balance

namespace config

/-- The key of a token type: (Symbol, Group). -/
def TokenType.Id (t : TokenType) : String × String :=
  (t.Symbol, t.Group)

/-- Modelled from the spec: `CreateDefaultToken(ctx, configSvc, req)` of package `config`,
which is not among the source files.  Section 2, Config Registry: token types are keyed by
symbol and group; creation is "create if absent, else report already-exists". -/
def CreateDefaultToken (ctx : Context) (req : CreateTokenTypeRequest) :
    Except Error TokenType × Context :=
  match StateGet TokenType.Id (req.Symbol, req.Group) ctx.State.Tokens with
  | some _ => (.error .ErrTokenAlreadyExists, ctx)
  | none =>
    let token : TokenType :=
      { Symbol := req.Symbol, Group := req.Group, Decimals := req.Decimals,
        TotalSupply := req.TotalSupply }
    (.ok token,
      { ctx with State := { ctx.State with Tokens := StatePut TokenType.Id token ctx.State.Tokens } })

end config

namespace allowance

/-- `Service.GetAllowance` (allowance.go, lines 28-48). -/
def GetAllowance (V : Validators) (ctx : Context) (id : AllowanceId) :
    Except Error Allowance × Context :=
  match V.AllowanceId id with
  | some err => (.error err, ctx)
  | none =>
    match State.Get ctx id with
    | .error err =>
      if err.Is .ErrKeyNotFound then
        (.ok { Owner := id.Owner, Spender := id.Spender, Symbol := id.Symbol, Group := id.Group,
               Amount := 0 }, ctx)
      else
        (.error (.wrap "get allowance" err), ctx)
    | .ok allowance => (.ok allowance, ctx)

/-- `Service.Approve` (allowance.go, lines 50-85). -/
def Approve (V : Validators) (ctx : Context) (req : ApproveRequest) :
    Except Error Allowance × Context :=
  match V.ApproveRequest req with
  | some err => (.error err, ctx)
  | none =>
    match account.GetInvokerAddress ctx with
    | .error err => (.error (.wrap "get invoker address" err), ctx)
    | .ok invokerAddress =>
      if invokerAddress.Address ≠ req.Owner then
        (.error .ErrOwnerOnly, ctx)
      else
        let allowance : Allowance :=
          { Owner := req.Owner, Spender := req.Spender, Symbol := req.Symbol,
            Group := req.Group, Amount := req.Amount }
        let ctx1 := State.Put ctx allowance
        let ctx2 := Event.Set ctx1 (.Approved req.Owner req.Spender req.Amount)
        (.ok allowance, ctx2)

/-- `Service.TransferFrom` (allowance.go, lines 87-142). -/
def TransferFrom (V : Validators) (ctx : Context) (req : TransferFromRequest) :
    Except Error TransferFromResponse × Context :=
  match V.TransferFromRequest req with
  | some err => (.error err, ctx)
  | none =>
    match account.GetInvokerAddress ctx with
    | .error err => (.error err, ctx)
    | .ok spenderAddress =>
      match GetAllowance V ctx
          { Owner := req.Owner, Spender := spenderAddress.Address, Symbol := req.Symbol,
            Group := req.Group } with
      | (.error err, ctx1) => (.error err, ctx1)
      | (.ok allowance, ctx1) =>
        if allowance.Amount < req.Amount then
          (.error (.wrap
            ("request trasfer amount=" ++ toString req.Amount ++ ", allowance="
              ++ toString allowance.Amount)
            .ErrAllowanceInsufficient), ctx1)
        else
          let allowance : Allowance := { allowance with Amount := allowance.Amount - req.Amount }
          let ctx2 := State.Put ctx1 allowance
          match balance.Store.Transfer ctx2
              { Sender := req.Owner, Recipient := req.Recipient, Symbol := req.Symbol,
                Group := req.Group, Amount := req.Amount } with
          | (.error err, ctx3) => (.error err, ctx3)
          | (.ok _, ctx3) =>
            let ctx4 := Event.Set ctx3
              (.TransferredFrom req.Owner spenderAddress.Address req.Recipient req.Amount)
            (.ok { Owner := req.Owner, Recipient := req.Recipient, Amount := req.Amount }, ctx4)

end allowance

namespace erc20

/-- `Token`: the static hardcoded token (erc20.go, lines 16-24). -/
def Token : config.CreateTokenTypeRequest :=
  { Name := "SomeToken", Symbol := "@", Group := "", Decimals := 2, TotalSupply := 10000000 }

/-- The handler that `New` registers with `r.Init` (erc20.go, lines 51-73). -/
def Init (ctx : Context) : Except Error Unit × Context :=
  match config.CreateDefaultToken ctx Token with
  | (.error err, ctx1) =>
    if err.Is .ErrTokenAlreadyExists then (.ok (), ctx1) else (.error err, ctx1)
  | (.ok token, ctx1) =>
    match account.GetInvokerAddress ctx1 with
    | .error err => (.error err, ctx1)
    | .ok ownerAddress =>
      match balance.Store.Add ctx1 ownerAddress.Address token Token.TotalSupply with
      | (.error err, ctx2) => (.error err, ctx2)
      | (.ok _, ctx2) => (.ok (), ctx2)

end erc20

/-- Modelled from the spec: the atomic invocation boundary of the hosting runtime, which is
not among the source files.  Section 5: the reads and writes of one invocation are buffered
and committed as a unit: when the handler succeeds its writes and events become visible, when
it returns an error none do. -/
def Invoke {α : Type} (handler : Context → Except Error α × Context)
    (invoker : Except Error account.AddressId) (w : Ledger) :
    Except Error α × Ledger × List allowance.Event :=
  match handler { Invoker := invoker, State := w, Events := [] } with
  | (.ok r, ctx) => (.ok r, ctx.State, ctx.Events)
  | (.error err, _) => (.error err, w, [])

/-- The allowance of `id` as `GetAllowance` reports it: the stored amount, 0 when absent. -/
def allowanceOf (w : Ledger) (id : allowance.AllowanceId) : U64 :=
  match StateGet allowance.Allowance.Id id w.Allowances with
  | some a => a.Amount
  | none => 0

/-- The balance of `id`: the stored amount, 0 when absent. -/
def balanceOf (w : Ledger) (id : balance.BalanceId) : Nat :=
  match StateGet balance.Balance.Id id w.Balances with
  | some b => b.Amount
  | none => 0

/-- Modelled from the spec: the field-level constraints of section 6, "all identifier fields
non-empty" (the group is an optional partition and may be empty; an amount is a `uint64` and
so never negative).  The generated `Validate` methods are not among the source files; this
instance of `Validators` is the one the concrete examples run with. -/
def specValidators : Validators :=
  { AllowanceId := fun id =>
      if id.Owner = "" ∨ id.Spender = "" ∨ id.Symbol = "" then some (.other "validation") else none
    ApproveRequest := fun req =>
      if req.Owner = "" ∨ req.Spender = "" ∨ req.Symbol = "" then some (.other "validation")
      else none
    TransferFromRequest := fun req =>
      if req.Owner = "" ∨ req.Recipient = "" ∨ req.Symbol = "" then some (.other "validation")
      else none }

/-- The sum of the amounts of the balance records of the token (symbol, group). -/
def sumBalances (symbol group : String) (l : List balance.Balance) : Nat :=
  ((l.filter (fun b => decide (b.Symbol = symbol ∧ b.Group = group))).map
    (fun b => b.Amount)).sum

/-- The sum of all stored balances of the token (symbol, group). -/
def totalBalance (w : Ledger) (symbol group : String) : Nat :=
  sumBalances symbol group w.Balances

/-- A call of the allowance service that can change the state. -/
inductive Call where
  | Approve (req : allowance.ApproveRequest)
  | TransferFrom (req : allowance.TransferFromRequest)

/-- One invocation: who calls, and what. -/
structure Invocation where
  Invoker : Except Error account.AddressId
  Call : Call

/-- The state committed by one invocation, successful or failed. -/
def Invocation.commit (V : Validators) (w : Ledger) (i : Invocation) : Ledger :=
  match i.Call with
  | .Approve req => (Invoke (fun ctx => allowance.Approve V ctx req) i.Invoker w).2.1
  | .TransferFrom req => (Invoke (fun ctx => allowance.TransferFrom V ctx req) i.Invoker w).2.1

/-- The state committed by a finite sequence of invocations, in order. -/
def run (V : Validators) (w : Ledger) (calls : List Invocation) : Ledger :=
  calls.foldl (Invocation.commit V) w

/-- Whether the invocation, on the state `w`, is a successful `TransferFrom` of a positive
amount whose Owner is also its Recipient. -/
def Invocation.selfTransfers (V : Validators) (w : Ledger) (i : Invocation) : Bool :=
  match i.Call with
  | .Approve _ => false
  | .TransferFrom req =>
    decide (req.Owner = req.Recipient ∧ req.Amount ≠ 0)
      && (Invoke (fun ctx => allowance.TransferFrom V ctx req) i.Invoker w).1.toBool

/-- Whether the sequence, run from the state `w`, contains a successful `TransferFrom` of a
positive amount whose Owner is also its Recipient. -/
def anySelfTransfer (V : Validators) : Ledger → List Invocation → Bool
  | _, [] => false
  | w, i :: rest => i.selfTransfers V w || anySelfTransfer V (i.commit V w) rest

/-- The empty state of a freshly deployed chaincode. -/
def genesis : Ledger :=
  { Allowances := [], Balances := [], Tokens := [] }

/-- A sequence after the bootstrap by D: D approves S for 500, S moves 300 to R, a request of
S for 300 from D to D itself is refused, a request of S for 0 from D to D itself succeeds. -/
def sequenceConserving : List Invocation :=
  [⟨.ok ⟨"D"⟩, .Approve ⟨"D", "S", "@", "", 500⟩⟩,
   ⟨.ok ⟨"S"⟩, .TransferFrom ⟨"D", "R", "@", "", 300⟩⟩,
   ⟨.ok ⟨"S"⟩, .TransferFrom ⟨"D", "D", "@", "", 300⟩⟩,
   ⟨.ok ⟨"S"⟩, .TransferFrom ⟨"D", "D", "@", "", 0⟩⟩]

/-- A sequence after the bootstrap by D: D approves S for 500, S transfers 300 from D to D
itself. -/
def sequenceSelfTransfer : List Invocation :=
  [⟨.ok ⟨"D"⟩, .Approve ⟨"D", "S", "@", "", 500⟩⟩,
   ⟨.ok ⟨"S"⟩, .TransferFrom ⟨"D", "D", "@", "", 300⟩⟩]

/-- The result is an error `err` for which `errors.Is(err, target)` holds. -/
def failsWith {α : Type} (r : Except Error α) (target : Error) : Bool :=
  match r with
  | .error err => err.Is target
  | .ok _ => false

/-- The context of an invocation by a caller whose identity resolves to `address`, on the
state `w`, before the handler has run. -/
def contextOf (address : String) (w : Ledger) : Context :=
  { Invoker := .ok { Address := address }, State := w, Events := [] }

/-- Scenario of section 8: the state after the token was bootstrapped by account D. -/
def ledgerBootstrapped : Ledger :=
  { Allowances := []
    Balances := [⟨"D", "@", "", 10000000⟩]
    Tokens := [⟨"@", "", 2, 10000000⟩] }

/-- Scenario of section 8: D has approved spender S for 500. -/
def ledgerApproved : Ledger :=
  { Allowances := [⟨"D", "S", "@", "", 500⟩]
    Balances := [⟨"D", "@", "", 10000000⟩]
    Tokens := [⟨"@", "", 2, 10000000⟩] }

/-- Scenario of section 8: S has transferred 300 from D to R. -/
def ledgerSpent : Ledger :=
  { Allowances := [⟨"D", "S", "@", "", 200⟩]
    Balances := [⟨"D", "@", "", 9999700⟩, ⟨"R", "@", "", 300⟩]
    Tokens := [⟨"@", "", 2, 10000000⟩] }

/-- An allowance of 500 on an owner who holds only 100. -/
def ledgerOverdrawn : Ledger :=
  { Allowances := [⟨"D", "S", "@", "", 500⟩]
    Balances := [⟨"D", "@", "", 100⟩]
    Tokens := [⟨"@", "", 2, 10000000⟩] }

/-- A call of one of the handlers of the two source files. -/
inductive Operation where
  | GetAllowance (id : allowance.AllowanceId)
  | Approve (req : allowance.ApproveRequest)
  | TransferFrom (req : allowance.TransferFromRequest)
  | Init

/-- One invocation of the chaincode: who calls, and which handler with which request. -/
structure Transaction where
  Invoker : Except Error account.AddressId
  Operation : Operation

/-- Whether the invocation succeeds on the state `w`, and the state it commits. -/
def Transaction.outcome (V : Validators) (w : Ledger) (t : Transaction) : Bool × Ledger :=
  match t.Operation with
  | .GetAllowance id =>
    ((Invoke (fun ctx => allowance.GetAllowance V ctx id) t.Invoker w).1.toBool,
      (Invoke (fun ctx => allowance.GetAllowance V ctx id) t.Invoker w).2.1)
  | .Approve req =>
    ((Invoke (fun ctx => allowance.Approve V ctx req) t.Invoker w).1.toBool,
      (Invoke (fun ctx => allowance.Approve V ctx req) t.Invoker w).2.1)
  | .TransferFrom req =>
    ((Invoke (fun ctx => allowance.TransferFrom V ctx req) t.Invoker w).1.toBool,
      (Invoke (fun ctx => allowance.TransferFrom V ctx req) t.Invoker w).2.1)
  | .Init =>
    ((Invoke erc20.Init t.Invoker w).1.toBool, (Invoke erc20.Init t.Invoker w).2.1)

/-- The amount the invocation spends from the allowance of key `k` on the state `w`: the
Amount of a successful `TransferFrom` by the caller `k.Spender` with the owner, symbol and
group of `k`, and 0 for every other invocation. -/
def Transaction.spent (V : Validators) (w : Ledger) (t : Transaction)
    (k : allowance.AllowanceId) : Nat :=
  match t.Operation, t.Invoker with
  | .TransferFrom req, .ok caller =>
    if caller.Address = k.Spender ∧ req.Owner = k.Owner ∧ req.Symbol = k.Symbol
        ∧ req.Group = k.Group ∧ (t.outcome V w).1 = true then
      req.Amount.val
    else 0
  | _, _ => 0

/-- Whether the invocation is a successful `Approve` on the key `k`. -/
def Transaction.approves (V : Validators) (w : Ledger) (t : Transaction)
    (k : allowance.AllowanceId) : Bool :=
  match t.Operation with
  | .Approve req =>
    decide (k = ⟨req.Owner, req.Spender, req.Symbol, req.Group⟩) && (t.outcome V w).1
  | _ => false

/-- The state committed by a finite sequence of invocations, in order. -/
def execute (V : Validators) (w : Ledger) (ts : List Transaction) : Ledger :=
  ts.foldl (fun v t => (t.outcome V v).2) w

/-- The sum of the amounts spent from the allowance of key `k` along the sequence. -/
def totalSpent (V : Validators) (k : allowance.AllowanceId) : Ledger → List Transaction → Nat
  | _, [] => 0
  | w, t :: ts => t.spent V w k + totalSpent V k (t.outcome V w).2 ts

/-- Whether the sequence contains a successful `Approve` on the key `k`. -/
def anyApprove (V : Validators) (k : allowance.AllowanceId) : Ledger → List Transaction → Bool
  | _, [] => false
  | w, t :: ts => t.approves V w k || anyApprove V k (t.outcome V w).2 ts

/-- A sequence on the state `ledgerApproved`: S spends 300, a further 300 is refused, D
approves another spender T, X reads the allowance, E runs `Init` again, S spends the
remaining 200. -/
def sequenceSpending : List Transaction :=
  [⟨.ok ⟨"S"⟩, .TransferFrom ⟨"D", "R", "@", "", 300⟩⟩,
   ⟨.ok ⟨"S"⟩, .TransferFrom ⟨"D", "R", "@", "", 300⟩⟩,
   ⟨.ok ⟨"D"⟩, .Approve ⟨"D", "T", "@", "", 70⟩⟩,
   ⟨.ok ⟨"X"⟩, .GetAllowance ⟨"D", "S", "@", ""⟩⟩,
   ⟨.ok ⟨"E"⟩, .Init⟩,
   ⟨.ok ⟨"S"⟩, .TransferFrom ⟨"D", "Q", "@", "", 200⟩⟩]

/-! ## The keyed collections -/

theorem StateGet_key {α κ : Type} [DecidableEq κ] (key : α → κ) (k : κ) (s : List α) (a : α)
    (h : StateGet key k s = some a) : key a = k := by
  have := List.find?_some h
  simpa using this

theorem StateGet_StatePut_self {α κ : Type} [DecidableEq κ] (key : α → κ) (a : α) (s : List α) :
    StateGet key (key a) (StatePut key a s) = some a := by
  induction s with
  | nil => simp [StateGet, StatePut]
  | cons b bs ih =>
    by_cases h : key b = key a
    · simp [StateGet, StatePut, h]
    · simpa [StateGet, StatePut, h] using ih

theorem StateGet_StatePut_of_ne {α κ : Type} [DecidableEq κ] (key : α → κ) (a : α) (k : κ)
    (s : List α) (hk : key a ≠ k) :
    StateGet key k (StatePut key a s) = StateGet key k s := by
  induction s with
  | nil => simp [StateGet, StatePut, hk]
  | cons b bs ih =>
    by_cases h : key b = key a
    · have hb : key b ≠ k := by rw [h]; exact hk
      simp [StateGet, StatePut, h, hk, hb]
    · by_cases hbk : key b = k
      · have hka : ¬ k = key a := fun e => hk e.symm
        simp [StateGet, StatePut, hbk, hka]
      · simpa [StateGet, StatePut, h, hbk] using ih

theorem StatePut_StatePut_self {α κ : Type} [DecidableEq κ] (key : α → κ) (a : α) (s : List α) :
    StatePut key a (StatePut key a s) = StatePut key a s := by
  induction s with
  | nil => simp [StatePut]
  | cons b bs ih =>
    by_cases h : key b = key a
    · simp [StatePut, h]
    · simp [StatePut, h, ih]

/-! ## Reading allowances and balances after a write -/

theorem allowanceOf_Put_self (ctx : Context) (a : allowance.Allowance) :
    allowanceOf (allowance.State.Put ctx a).State a.Id = a.Amount := by
  simp [allowanceOf, allowance.State.Put, StateGet_StatePut_self]

theorem allowanceOf_Put_of_ne (ctx : Context) (a : allowance.Allowance)
    (id : allowance.AllowanceId) (h : a.Id ≠ id) :
    allowanceOf (allowance.State.Put ctx a).State id = allowanceOf ctx.State id := by
  simp [allowanceOf, allowance.State.Put, StateGet_StatePut_of_ne _ _ _ _ h]

theorem balanceOf_Put_self (ctx : Context) (id : balance.BalanceId) (n : Nat) :
    balanceOf (balance.Store.Put ctx id n).State id = n := by
  have h := StateGet_StatePut_self balance.Balance.Id
    { Address := id.Address, Symbol := id.Symbol, Group := id.Group, Amount := n }
    ctx.State.Balances
  have hk : balance.Balance.Id
      { Address := id.Address, Symbol := id.Symbol, Group := id.Group, Amount := n } = id := rfl
  rw [hk] at h
  simp [balanceOf, balance.Store.Put, h]

theorem balanceOf_Put_of_ne (ctx : Context) (id k : balance.BalanceId) (n : Nat) (h : id ≠ k) :
    balanceOf (balance.Store.Put ctx id n).State k = balanceOf ctx.State k := by
  have hk : balance.Balance.Id
      { Address := id.Address, Symbol := id.Symbol, Group := id.Group, Amount := n } ≠ k := h
  simp [balanceOf, balance.Store.Put, StateGet_StatePut_of_ne _ _ _ _ hk]

theorem allowanceOf_Store_Put (ctx : Context) (id : balance.BalanceId) (n : Nat)
    (k : allowance.AllowanceId) :
    allowanceOf (balance.Store.Put ctx id n).State k = allowanceOf ctx.State k := rfl

theorem State_Event_Set (ctx : Context) (e : allowance.Event) :
    (allowance.Event.Set ctx e).State = ctx.State := rfl

/-- `GetAllowance` on an id that passes validation: the record of the id with the amount
`allowanceOf` reports, and the context untouched. -/
theorem GetAllowance_eq (V : Validators) (ctx : Context) (id : allowance.AllowanceId)
    (hid : V.AllowanceId id = none) :
    allowance.GetAllowance V ctx id =
      (.ok { Owner := id.Owner, Spender := id.Spender, Symbol := id.Symbol, Group := id.Group,
             Amount := allowanceOf ctx.State id }, ctx) := by
  cases hget : StateGet allowance.Allowance.Id id ctx.State.Allowances with
  | none =>
    simp [allowance.GetAllowance, hid, allowance.State.Get, hget, Error.Is, allowanceOf]
  | some a =>
    have hk := StateGet_key _ _ _ _ hget
    subst hk
    simp only [allowance.GetAllowance, hid, allowance.State.Get, hget, allowanceOf]
    rfl

/-! ## `TransferFrom`, path by path -/

/-- The path of `TransferFrom` on which `Store.Transfer` fails: the error is returned as it
is, and the context returned holds the allowance already overwritten by the old amount minus
the requested one. -/
theorem TransferFrom_of_insufficient_balance (V : Validators) (ctx : Context)
    (req : allowance.TransferFromRequest) (caller : account.AddressId)
    (hreq : V.TransferFromRequest req = none)
    (hinv : ctx.Invoker = .ok caller)
    (hid : V.AllowanceId ⟨req.Owner, caller.Address, req.Symbol, req.Group⟩ = none)
    (hallow : req.Amount ≤ allowanceOf ctx.State ⟨req.Owner, caller.Address, req.Symbol, req.Group⟩)
    (hbal : balanceOf ctx.State ⟨req.Owner, req.Symbol, req.Group⟩ < req.Amount.val) :
    allowance.TransferFrom V ctx req =
      (.error .ErrInsufficientBalance,
        allowance.State.Put ctx
          { Owner := req.Owner, Spender := caller.Address, Symbol := req.Symbol,
            Group := req.Group,
            Amount := allowanceOf ctx.State ⟨req.Owner, caller.Address, req.Symbol, req.Group⟩
              - req.Amount }) := by
  have hnlt : ¬ allowanceOf ctx.State ⟨req.Owner, caller.Address, req.Symbol, req.Group⟩
      < req.Amount := not_lt.mpr hallow
  have hb : balance.Store.Get
      (allowance.State.Put ctx
        { Owner := req.Owner, Spender := caller.Address, Symbol := req.Symbol,
          Group := req.Group,
          Amount := allowanceOf ctx.State ⟨req.Owner, caller.Address, req.Symbol, req.Group⟩
            - req.Amount })
      ⟨req.Owner, req.Symbol, req.Group⟩ < req.Amount.val := hbal
  simp only [allowance.TransferFrom, hreq, account.GetInvokerAddress, hinv,
    GetAllowance_eq V ctx _ hid, hnlt, if_false, balance.Store.Transfer, hb, if_true]

/-- The path of `TransferFrom` on which every check passes: the response, and the context
after the allowance write, the write of the sender's and of the recipient's new balance, both
computed from the balances before the call, and the event. -/
theorem TransferFrom_of_sufficient (V : Validators) (ctx : Context)
    (req : allowance.TransferFromRequest) (caller : account.AddressId)
    (hreq : V.TransferFromRequest req = none)
    (hinv : ctx.Invoker = .ok caller)
    (hid : V.AllowanceId ⟨req.Owner, caller.Address, req.Symbol, req.Group⟩ = none)
    (hallow : req.Amount ≤ allowanceOf ctx.State ⟨req.Owner, caller.Address, req.Symbol, req.Group⟩)
    (hbal : req.Amount.val ≤ balanceOf ctx.State ⟨req.Owner, req.Symbol, req.Group⟩) :
    allowance.TransferFrom V ctx req =
      (.ok { Owner := req.Owner, Recipient := req.Recipient, Amount := req.Amount },
        allowance.Event.Set
          (balance.Store.Put
            (balance.Store.Put
              (allowance.State.Put ctx
                { Owner := req.Owner, Spender := caller.Address, Symbol := req.Symbol,
                  Group := req.Group,
                  Amount := allowanceOf ctx.State
                    ⟨req.Owner, caller.Address, req.Symbol, req.Group⟩ - req.Amount })
              ⟨req.Owner, req.Symbol, req.Group⟩
              (balanceOf ctx.State ⟨req.Owner, req.Symbol, req.Group⟩ - req.Amount.val))
            ⟨req.Recipient, req.Symbol, req.Group⟩
            (balanceOf ctx.State ⟨req.Recipient, req.Symbol, req.Group⟩ + req.Amount.val))
          (.TransferredFrom req.Owner caller.Address req.Recipient req.Amount)) := by
  have hnlt : ¬ allowanceOf ctx.State ⟨req.Owner, caller.Address, req.Symbol, req.Group⟩
      < req.Amount := not_lt.mpr hallow
  have hb : ¬ balance.Store.Get
      (allowance.State.Put ctx
        { Owner := req.Owner, Spender := caller.Address, Symbol := req.Symbol,
          Group := req.Group,
          Amount := allowanceOf ctx.State ⟨req.Owner, caller.Address, req.Symbol, req.Group⟩
            - req.Amount })
      ⟨req.Owner, req.Symbol, req.Group⟩ < req.Amount.val := not_lt.mpr hbal
  simp only [allowance.TransferFrom, hreq, account.GetInvokerAddress, hinv,
    GetAllowance_eq V ctx _ hid, hnlt, if_false, balance.Store.Transfer, hb]
  rfl

/-! ## Conservation -/

theorem sumBalances_StatePut (symbol group : String) (b : balance.Balance)
    (l : List balance.Balance) :
    sumBalances symbol group (StatePut balance.Balance.Id b l)
        + (if b.Symbol = symbol ∧ b.Group = group then
            (match StateGet balance.Balance.Id b.Id l with
              | some c => c.Amount
              | none => 0)
           else 0)
      = sumBalances symbol group l
        + (if b.Symbol = symbol ∧ b.Group = group then b.Amount else 0) := by
  induction l with
  | nil =>
    by_cases hm : b.Symbol = symbol ∧ b.Group = group
    · simp [sumBalances, StatePut, StateGet, hm]
    · simp [sumBalances, StatePut, StateGet, hm]
  | cons c cs ih =>
    by_cases hk : balance.Balance.Id c = balance.Balance.Id b
    · have hs : c.Symbol = b.Symbol := congrArg balance.BalanceId.Symbol hk
      have hg : c.Group = b.Group := congrArg balance.BalanceId.Group hk
      by_cases hm : b.Symbol = symbol ∧ b.Group = group
      · have hmc : c.Symbol = symbol ∧ c.Group = group := by rw [hs, hg]; exact hm
        simp [sumBalances, StatePut, StateGet, hk, hm, hmc]
        omega
      · have hmc : ¬ (c.Symbol = symbol ∧ c.Group = group) := by rw [hs, hg]; exact hm
        simp [sumBalances, StatePut, StateGet, hk, hm, hmc]
    · have hget : StateGet balance.Balance.Id b.Id (c :: cs)
          = StateGet balance.Balance.Id b.Id cs := by
        simp [StateGet, hk]
      rw [hget]
      have hput : StatePut balance.Balance.Id b (c :: cs)
          = c :: StatePut balance.Balance.Id b cs := by
        simp [StatePut, hk]
      rw [hput]
      by_cases hmc : c.Symbol = symbol ∧ c.Group = group
      · have e1 : sumBalances symbol group (c :: StatePut balance.Balance.Id b cs)
            = c.Amount + sumBalances symbol group (StatePut balance.Balance.Id b cs) := by
          simp [sumBalances, hmc]
        have e2 : sumBalances symbol group (c :: cs)
            = c.Amount + sumBalances symbol group cs := by
          simp [sumBalances, hmc]
        rw [e1, e2]
        omega
      · have e1 : sumBalances symbol group (c :: StatePut balance.Balance.Id b cs)
            = sumBalances symbol group (StatePut balance.Balance.Id b cs) := by
          simp [sumBalances, hmc]
        have e2 : sumBalances symbol group (c :: cs) = sumBalances symbol group cs := by
          simp [sumBalances, hmc]
        rw [e1, e2]
        exact ih

theorem totalBalance_Store_Put (ctx : Context) (id : balance.BalanceId) (n : Nat)
    (symbol group : String) :
    totalBalance (balance.Store.Put ctx id n).State symbol group
        + (if id.Symbol = symbol ∧ id.Group = group then balanceOf ctx.State id else 0)
      = totalBalance ctx.State symbol group
        + (if id.Symbol = symbol ∧ id.Group = group then n else 0) :=
  sumBalances_StatePut symbol group
    { Address := id.Address, Symbol := id.Symbol, Group := id.Group, Amount := n }
    ctx.State.Balances

theorem Invoke_of_error {α : Type} (handler : Context → Except Error α × Context)
    (invoker : Except Error account.AddressId) (w : Ledger) (err : Error)
    (h : (handler { Invoker := invoker, State := w, Events := [] }).1 = .error err) :
    Invoke handler invoker w = (.error err, w, []) := by
  unfold Invoke
  split
  · rename_i r ctx heq
    rw [heq] at h
    cases h
  · rename_i e ctx heq
    rw [heq] at h
    cases h
    rfl

theorem Invoke_of_ok {α : Type} (handler : Context → Except Error α × Context)
    (invoker : Except Error account.AddressId) (w : Ledger) (r : α)
    (h : (handler { Invoker := invoker, State := w, Events := [] }).1 = .ok r) :
    Invoke handler invoker w
      = (.ok r, (handler { Invoker := invoker, State := w, Events := [] }).2.State,
          (handler { Invoker := invoker, State := w, Events := [] }).2.Events) := by
  unfold Invoke
  split
  · rename_i r2 ctx heq
    rw [heq] at h
    cases h
    rw [heq]
  · rename_i e ctx heq
    rw [heq] at h
    cases h

theorem totalBalance_TransferFrom_of_sufficient (V : Validators) (ctx : Context)
    (req : allowance.TransferFromRequest) (caller : account.AddressId)
    (hreq : V.TransferFromRequest req = none)
    (hinv : ctx.Invoker = .ok caller)
    (hid : V.AllowanceId ⟨req.Owner, caller.Address, req.Symbol, req.Group⟩ = none)
    (hallow : req.Amount
      ≤ allowanceOf ctx.State ⟨req.Owner, caller.Address, req.Symbol, req.Group⟩)
    (hbal : req.Amount.val ≤ balanceOf ctx.State ⟨req.Owner, req.Symbol, req.Group⟩)
    (hself : req.Owner ≠ req.Recipient ∨ req.Amount = 0)
    (symbol group : String) :
    totalBalance (allowance.TransferFrom V ctx req).2.State symbol group
      = totalBalance ctx.State symbol group := by
  rw [TransferFrom_of_sufficient V ctx req caller hreq hinv hid hallow hbal]
  have h1 := totalBalance_Store_Put ctx ⟨req.Owner, req.Symbol, req.Group⟩
    (balanceOf ctx.State ⟨req.Owner, req.Symbol, req.Group⟩ - req.Amount.val) symbol group
  have h2 := totalBalance_Store_Put
    (balance.Store.Put ctx ⟨req.Owner, req.Symbol, req.Group⟩
      (balanceOf ctx.State ⟨req.Owner, req.Symbol, req.Group⟩ - req.Amount.val))
    ⟨req.Recipient, req.Symbol, req.Group⟩
    (balanceOf ctx.State ⟨req.Recipient, req.Symbol, req.Group⟩ + req.Amount.val) symbol group
  have hmid : balanceOf
      (balance.Store.Put ctx ⟨req.Owner, req.Symbol, req.Group⟩
        (balanceOf ctx.State ⟨req.Owner, req.Symbol, req.Group⟩ - req.Amount.val)).State
      ⟨req.Recipient, req.Symbol, req.Group⟩ + req.Amount.val
      = balanceOf ctx.State ⟨req.Recipient, req.Symbol, req.Group⟩ + req.Amount.val := by
    rcases hself with hne | hzero
    · have hk : (⟨req.Owner, req.Symbol, req.Group⟩ : balance.BalanceId)
          ≠ ⟨req.Recipient, req.Symbol, req.Group⟩ := by
        intro e
        exact hne (congrArg balance.BalanceId.Address e)
      rw [balanceOf_Put_of_ne _ _ _ _ hk]
    · have hval : req.Amount.val = 0 := by rw [hzero]; rfl
      rw [hval]
      by_cases hk : (⟨req.Owner, req.Symbol, req.Group⟩ : balance.BalanceId)
          = ⟨req.Recipient, req.Symbol, req.Group⟩
      · rw [← hk, balanceOf_Put_self]
        omega
      · rw [balanceOf_Put_of_ne _ _ _ _ hk]
  show totalBalance
      (balance.Store.Put
        (balance.Store.Put ctx ⟨req.Owner, req.Symbol, req.Group⟩
          (balanceOf ctx.State ⟨req.Owner, req.Symbol, req.Group⟩ - req.Amount.val))
        ⟨req.Recipient, req.Symbol, req.Group⟩
        (balanceOf ctx.State ⟨req.Recipient, req.Symbol, req.Group⟩
          + req.Amount.val)).State symbol group
    = totalBalance ctx.State symbol group
  by_cases hm : req.Symbol = symbol ∧ req.Group = group
  · obtain ⟨hs, hg⟩ := hm
    subst hs
    subst hg
    simp only [and_self, if_true] at h1 h2
    omega
  · simp only [hm, if_false, Nat.add_zero] at h1 h2
    omega

theorem Approve_Balances (V : Validators) (ctx : Context) (req : allowance.ApproveRequest) :
    (allowance.Approve V ctx req).2.State.Balances = ctx.State.Balances := by
  unfold allowance.Approve
  split
  · rfl
  · split
    · rfl
    · split <;> rfl

theorem totalBalance_Invoke_Approve (V : Validators) (w : Ledger)
    (invoker : Except Error account.AddressId) (req : allowance.ApproveRequest)
    (symbol group : String) :
    totalBalance (Invoke (fun ctx => allowance.Approve V ctx req) invoker w).2.1 symbol group
      = totalBalance w symbol group := by
  cases hres : (allowance.Approve V { Invoker := invoker, State := w, Events := [] } req).1 with
  | error err =>
    rw [Invoke_of_error (fun ctx => allowance.Approve V ctx req) invoker w err hres]
  | ok r =>
    rw [Invoke_of_ok (fun ctx => allowance.Approve V ctx req) invoker w r hres]
    show sumBalances symbol group
      (allowance.Approve V { Invoker := invoker, State := w, Events := [] } req).2.State.Balances
      = sumBalances symbol group w.Balances
    rw [Approve_Balances]

theorem totalBalance_Invoke_TransferFrom (V : Validators) (w : Ledger)
    (invoker : Except Error account.AddressId) (req : allowance.TransferFromRequest)
    (symbol group : String)
    (hself : (Invoke (fun ctx => allowance.TransferFrom V ctx req) invoker w).1.toBool = true →
      req.Owner ≠ req.Recipient ∨ req.Amount = 0) :
    totalBalance (Invoke (fun ctx => allowance.TransferFrom V ctx req) invoker w).2.1
        symbol group
      = totalBalance w symbol group := by
  cases hres : (allowance.TransferFrom V { Invoker := invoker, State := w, Events := [] }
      req).1 with
  | error err =>
    rw [Invoke_of_error (fun ctx => allowance.TransferFrom V ctx req) invoker w err hres]
  | ok r =>
    rw [Invoke_of_ok (fun ctx => allowance.TransferFrom V ctx req) invoker w r hres] at hself
    have hself2 : req.Owner ≠ req.Recipient ∨ req.Amount = 0 := hself rfl
    rw [Invoke_of_ok (fun ctx => allowance.TransferFrom V ctx req) invoker w r hres]
    show totalBalance
      (allowance.TransferFrom V { Invoker := invoker, State := w, Events := [] } req).2.State
      symbol group = totalBalance w symbol group
    cases hreq : V.TransferFromRequest req with
    | some e => simp [allowance.TransferFrom, hreq] at hres
    | none =>
      cases invoker with
      | error e => simp [allowance.TransferFrom, hreq, account.GetInvokerAddress] at hres
      | ok caller =>
        cases hid : V.AllowanceId ⟨req.Owner, caller.Address, req.Symbol, req.Group⟩ with
        | some e =>
          simp [allowance.TransferFrom, hreq, account.GetInvokerAddress,
            allowance.GetAllowance, hid] at hres
        | none =>
          by_cases hlt : allowanceOf w ⟨req.Owner, caller.Address, req.Symbol, req.Group⟩
              < req.Amount
          · have hlt2 : allowanceOf
                ({ Invoker := .ok caller, State := w, Events := [] } : Context).State
                ⟨req.Owner, caller.Address, req.Symbol, req.Group⟩ < req.Amount := hlt
            simp [allowance.TransferFrom, hreq, account.GetInvokerAddress,
              GetAllowance_eq V _ _ hid, hlt2] at hres
          · by_cases hb : balanceOf w ⟨req.Owner, req.Symbol, req.Group⟩ < req.Amount.val
            · rw [TransferFrom_of_insufficient_balance V
                { Invoker := .ok caller, State := w, Events := [] } req caller hreq rfl hid
                (not_lt.mp hlt) hb] at hres
              cases hres
            · exact totalBalance_TransferFrom_of_sufficient V
                { Invoker := .ok caller, State := w, Events := [] } req caller hreq rfl hid
                (not_lt.mp hlt) (not_lt.mp hb) hself2 symbol group

theorem totalBalance_commit (V : Validators) (w : Ledger) (i : Invocation)
    (symbol group : String) (hself : i.selfTransfers V w = false) :
    totalBalance (i.commit V w) symbol group = totalBalance w symbol group := by
  obtain ⟨invoker, call⟩ := i
  cases call with
  | Approve req => exact totalBalance_Invoke_Approve V w invoker req symbol group
  | TransferFrom req =>
    apply totalBalance_Invoke_TransferFrom V w invoker req symbol group
    intro hok
    have h : (decide (req.Owner = req.Recipient ∧ req.Amount ≠ 0)
        && (Invoke (fun ctx => allowance.TransferFrom V ctx req) invoker w).1.toBool)
        = false := hself
    rw [hok, Bool.and_true] at h
    have hn : ¬ (req.Owner = req.Recipient ∧ req.Amount ≠ 0) := of_decide_eq_false h
    by_cases ho : req.Owner = req.Recipient
    · right
      by_contra hz
      exact hn ⟨ho, hz⟩
    · left
      exact ho

theorem totalBalance_run (V : Validators) (calls : List Invocation) (w : Ledger)
    (symbol group : String) (hself : anySelfTransfer V w calls = false) :
    totalBalance (run V w calls) symbol group = totalBalance w symbol group := by
  induction calls generalizing w with
  | nil => rfl
  | cons i rest ih =>
    have hsplit : i.selfTransfers V w = false
        ∧ anySelfTransfer V (i.commit V w) rest = false := by
      have : (i.selfTransfers V w || anySelfTransfer V (i.commit V w) rest) = false := hself
      simpa using this
    show totalBalance (run V (i.commit V w) rest) symbol group = _
    rw [ih (i.commit V w) hsplit.2, totalBalance_commit V w i symbol group hsplit.1]

/-! ## Bootstrap -/

theorem Init_of_absent (ctx : Context) (deployer : account.AddressId)
    (hinv : ctx.Invoker = .ok deployer)
    (habsent : StateGet config.TokenType.Id (erc20.Token.Symbol, erc20.Token.Group)
      ctx.State.Tokens = none) :
    erc20.Init ctx =
      (.ok (),
        balance.Store.Put
          { Invoker := ctx.Invoker
            State :=
              { Allowances := ctx.State.Allowances
                Balances := ctx.State.Balances
                Tokens := StatePut config.TokenType.Id ⟨"@", "", 2, 10000000⟩ ctx.State.Tokens }
            Events := ctx.Events }
          ⟨deployer.Address, "@", ""⟩
          (balanceOf ctx.State ⟨deployer.Address, "@", ""⟩ + 10000000)) := by
  simp only [erc20.Init, config.CreateDefaultToken, habsent, account.GetInvokerAddress, hinv,
    balance.Store.Add]
  rfl

theorem Init_of_present (ctx : Context)
    (hpresent : (StateGet config.TokenType.Id (erc20.Token.Symbol, erc20.Token.Group)
      ctx.State.Tokens).isSome = true) :
    erc20.Init ctx = (.ok (), ctx) := by
  cases hget : StateGet config.TokenType.Id (erc20.Token.Symbol, erc20.Token.Group)
      ctx.State.Tokens with
  | none => rw [hget] at hpresent; cases hpresent
  | some t => simp [erc20.Init, config.CreateDefaultToken, hget, Error.Is]

/-! ## The claims -/

/-- C1.  A valid `TransferFrom` request by a resolved caller whose Amount exceeds the current
allowance of (Owner, caller, Symbol, Group), an absent entry counting as 0, fails with an
error that is `ErrAllowanceInsufficient`, and the context the handler leaves is the one it
received: no allowance, no balance and no event has changed.  "Valid" means that both
validations on the path pass: the request's and the one `GetAllowance` runs on the id. -/
theorem C1_transferFrom_allowance_insufficient (V : Validators) (ctx : Context)
    (req : allowance.TransferFromRequest) (caller : account.AddressId)
    (hreq : V.TransferFromRequest req = none)
    (hinv : ctx.Invoker = .ok caller)
    (hid : V.AllowanceId ⟨req.Owner, caller.Address, req.Symbol, req.Group⟩ = none)
    (hlt : allowanceOf ctx.State ⟨req.Owner, caller.Address, req.Symbol, req.Group⟩
      < req.Amount) :
    failsWith (allowance.TransferFrom V ctx req).1 .ErrAllowanceInsufficient = true
      ∧ (allowance.TransferFrom V ctx req).2 = ctx := by
  simp [allowance.TransferFrom, hreq, account.GetInvokerAddress, hinv,
    GetAllowance_eq V ctx _ hid, hlt, Error.Is, failsWith]

/-- Witness of C1, section 8: with an allowance of 200 left, a further request for 300 by S
fails and changes nothing. -/
theorem C1_transferFrom_allowance_insufficient_witness :
    allowanceOf ledgerSpent ⟨"D", "S", "@", ""⟩ < 300
      ∧ failsWith
          (allowance.TransferFrom specValidators (contextOf "S" ledgerSpent)
            ⟨"D", "R", "@", "", 300⟩).1 .ErrAllowanceInsufficient = true
      ∧ (allowance.TransferFrom specValidators (contextOf "S" ledgerSpent)
            ⟨"D", "R", "@", "", 300⟩).2 = contextOf "S" ledgerSpent :=
  ⟨by decide,
    C1_transferFrom_allowance_insufficient specValidators (contextOf "S" ledgerSpent)
      ⟨"D", "R", "@", "", 300⟩ ⟨"S"⟩ (by decide) rfl (by decide) (by decide)⟩

/-- C2.  A valid `TransferFrom` request whose Amount is within the allowance but above the
owner's balance fails with `ErrInsufficientBalance`.  Inside the invocation the handler has
already overwritten the allowance with the decremented amount and has written no balance;
the invocation, having failed, commits nothing: the state it leaves is the state before the
call and no event is emitted. -/
theorem C2_transferFrom_insufficient_balance (V : Validators) (w : Ledger)
    (req : allowance.TransferFromRequest) (caller : account.AddressId)
    (hreq : V.TransferFromRequest req = none)
    (hid : V.AllowanceId ⟨req.Owner, caller.Address, req.Symbol, req.Group⟩ = none)
    (hallow : req.Amount ≤ allowanceOf w ⟨req.Owner, caller.Address, req.Symbol, req.Group⟩)
    (hbal : balanceOf w ⟨req.Owner, req.Symbol, req.Group⟩ < req.Amount.val) :
    failsWith (Invoke (fun ctx => allowance.TransferFrom V ctx req) (.ok caller) w).1
        .ErrInsufficientBalance = true
      ∧ (Invoke (fun ctx => allowance.TransferFrom V ctx req) (.ok caller) w).2 = (w, [])
      ∧ (allowance.TransferFrom V { Invoker := .ok caller, State := w, Events := [] }
          req).2.State.Balances = w.Balances
      ∧ allowanceOf
          (allowance.TransferFrom V { Invoker := .ok caller, State := w, Events := [] }
            req).2.State
          ⟨req.Owner, caller.Address, req.Symbol, req.Group⟩
        = allowanceOf w ⟨req.Owner, caller.Address, req.Symbol, req.Group⟩ - req.Amount := by
  have h := TransferFrom_of_insufficient_balance V
    { Invoker := .ok caller, State := w, Events := [] } req caller hreq rfl hid hallow hbal
  refine ⟨?_, ?_, ?_, ?_⟩
  · simp [Invoke, h, Error.Is, failsWith]
  · simp [Invoke, h]
  · rw [h]; rfl
  · rw [h]
    exact allowanceOf_Put_self _
      { Owner := req.Owner, Spender := caller.Address, Symbol := req.Symbol, Group := req.Group,
        Amount := allowanceOf w ⟨req.Owner, caller.Address, req.Symbol, req.Group⟩ - req.Amount }

/-- Witness of C2: allowance 500, owner's balance 100, request for 300. -/
theorem C2_transferFrom_insufficient_balance_witness :
    ((300 : U64) ≤ allowanceOf ledgerOverdrawn ⟨"D", "S", "@", ""⟩
        ∧ balanceOf ledgerOverdrawn ⟨"D", "@", ""⟩ < 300)
      ∧ failsWith
          (Invoke (fun ctx => allowance.TransferFrom specValidators ctx ⟨"D", "R", "@", "", 300⟩)
            (.ok ⟨"S"⟩) ledgerOverdrawn).1 .ErrInsufficientBalance = true
      ∧ (Invoke (fun ctx => allowance.TransferFrom specValidators ctx ⟨"D", "R", "@", "", 300⟩)
            (.ok ⟨"S"⟩) ledgerOverdrawn).2 = (ledgerOverdrawn, []) :=
  ⟨by decide,
    (C2_transferFrom_insufficient_balance specValidators ledgerOverdrawn
      ⟨"D", "R", "@", "", 300⟩ ⟨"S"⟩ (by decide) (by decide) (by decide) (by decide)).1,
    (C2_transferFrom_insufficient_balance specValidators ledgerOverdrawn
      ⟨"D", "R", "@", "", 300⟩ ⟨"S"⟩ (by decide) (by decide) (by decide) (by decide)).2.1⟩

/-- C3, amended.  A valid `TransferFrom` request by a resolved caller S whose Amount is within
both the allowance of (Owner, S, Symbol, Group) and the owner's balance succeeds and returns
`TransferFromResponse{Owner, Recipient, Amount}` copied from the request; afterwards
`GetAllowance` on (Owner, S, Symbol, Group) returns the previous allowance minus Amount (a
true difference, not a wrapped one); when Owner and Recipient differ the owner's balance has
gone down and the recipient's balance up by Amount; every balance of another key is
unchanged.  Nothing is stated about the balance of an account that is both Owner and
Recipient. -/
theorem C3_transferFrom_success (V : Validators) (ctx : Context)
    (req : allowance.TransferFromRequest) (caller : account.AddressId)
    (hreq : V.TransferFromRequest req = none)
    (hinv : ctx.Invoker = .ok caller)
    (hid : V.AllowanceId ⟨req.Owner, caller.Address, req.Symbol, req.Group⟩ = none)
    (hallow : req.Amount
      ≤ allowanceOf ctx.State ⟨req.Owner, caller.Address, req.Symbol, req.Group⟩)
    (hbal : req.Amount.val ≤ balanceOf ctx.State ⟨req.Owner, req.Symbol, req.Group⟩) :
    (allowance.TransferFrom V ctx req).1
        = .ok { Owner := req.Owner, Recipient := req.Recipient, Amount := req.Amount }
      ∧ (allowance.GetAllowance V (allowance.TransferFrom V ctx req).2
            ⟨req.Owner, caller.Address, req.Symbol, req.Group⟩).1
          = .ok { Owner := req.Owner, Spender := caller.Address, Symbol := req.Symbol,
                  Group := req.Group,
                  Amount := allowanceOf ctx.State
                    ⟨req.Owner, caller.Address, req.Symbol, req.Group⟩ - req.Amount }
      ∧ (allowanceOf ctx.State ⟨req.Owner, caller.Address, req.Symbol, req.Group⟩
            - req.Amount).val
          = (allowanceOf ctx.State ⟨req.Owner, caller.Address, req.Symbol, req.Group⟩).val
            - req.Amount.val
      ∧ (req.Owner ≠ req.Recipient →
          balanceOf (allowance.TransferFrom V ctx req).2.State
              ⟨req.Owner, req.Symbol, req.Group⟩
            = balanceOf ctx.State ⟨req.Owner, req.Symbol, req.Group⟩ - req.Amount.val
          ∧ balanceOf (allowance.TransferFrom V ctx req).2.State
              ⟨req.Recipient, req.Symbol, req.Group⟩
            = balanceOf ctx.State ⟨req.Recipient, req.Symbol, req.Group⟩ + req.Amount.val)
      ∧ (∀ id : balance.BalanceId,
          id ≠ ⟨req.Owner, req.Symbol, req.Group⟩ →
          id ≠ ⟨req.Recipient, req.Symbol, req.Group⟩ →
          balanceOf (allowance.TransferFrom V ctx req).2.State id = balanceOf ctx.State id) := by
  have h := TransferFrom_of_sufficient V ctx req caller hreq hinv hid hallow hbal
  rw [h]
  refine ⟨rfl, ?_, Fin.coe_sub_iff_le.mpr hallow, ?_, ?_⟩
  · rw [GetAllowance_eq V _ _ hid]
    have hput : allowanceOf
        (allowance.State.Put ctx
          { Owner := req.Owner, Spender := caller.Address, Symbol := req.Symbol,
            Group := req.Group,
            Amount := allowanceOf ctx.State
              ⟨req.Owner, caller.Address, req.Symbol, req.Group⟩ - req.Amount }).State
        (⟨req.Owner, caller.Address, req.Symbol, req.Group⟩ : allowance.AllowanceId)
        = allowanceOf ctx.State ⟨req.Owner, caller.Address, req.Symbol, req.Group⟩
          - req.Amount :=
      allowanceOf_Put_self ctx
        { Owner := req.Owner, Spender := caller.Address, Symbol := req.Symbol,
          Group := req.Group,
          Amount := allowanceOf ctx.State ⟨req.Owner, caller.Address, req.Symbol, req.Group⟩
            - req.Amount }
    simp only [State_Event_Set, allowanceOf_Store_Put, hput]
  · intro hne
    have hk : (⟨req.Recipient, req.Symbol, req.Group⟩ : balance.BalanceId)
        ≠ ⟨req.Owner, req.Symbol, req.Group⟩ := by
      intro e
      exact hne (congrArg balance.BalanceId.Address e).symm
    constructor
    · show balanceOf (balance.Store.Put _ _ _).State _ = _
      rw [balanceOf_Put_of_ne _ _ _ _ hk]
      exact balanceOf_Put_self _ _ _
    · show balanceOf (balance.Store.Put _ _ _).State _ = _
      rw [balanceOf_Put_self]
  · intro id h1 h2
    show balanceOf (balance.Store.Put _ _ _).State _ = _
    rw [balanceOf_Put_of_ne _ _ _ _ (Ne.symm h2)]
    exact balanceOf_Put_of_ne _ _ _ _ (Ne.symm h1)

/-- Witness of C3, section 8: allowance 500, balance 10000000, amount 300 gives allowance 200
and balances 9999700 and 300. -/
theorem C3_transferFrom_success_witness :
    (allowance.TransferFrom specValidators (contextOf "S" ledgerApproved)
        ⟨"D", "R", "@", "", 300⟩).1 = .ok ⟨"D", "R", 300⟩
      ∧ (allowance.GetAllowance specValidators
          (allowance.TransferFrom specValidators (contextOf "S" ledgerApproved)
            ⟨"D", "R", "@", "", 300⟩).2 ⟨"D", "S", "@", ""⟩).1
          = .ok ⟨"D", "S", "@", "", allowanceOf ledgerApproved ⟨"D", "S", "@", ""⟩ - 300⟩
      ∧ allowanceOf ledgerApproved ⟨"D", "S", "@", ""⟩ - 300 = 200
      ∧ balanceOf (allowance.TransferFrom specValidators (contextOf "S" ledgerApproved)
          ⟨"D", "R", "@", "", 300⟩).2.State ⟨"D", "@", ""⟩ = 9999700
      ∧ balanceOf (allowance.TransferFrom specValidators (contextOf "S" ledgerApproved)
          ⟨"D", "R", "@", "", 300⟩).2.State ⟨"R", "@", ""⟩ = 300 :=
  have h := C3_transferFrom_success specValidators (contextOf "S" ledgerApproved)
    ⟨"D", "R", "@", "", 300⟩ ⟨"S"⟩ (by decide) rfl (by decide) (by decide) (by decide)
  ⟨h.1, h.2.1, by decide, (h.2.2.2.1 (by decide)).1, (h.2.2.2.1 (by decide)).2⟩

/-- Counterexample to C3 as stated: S transfers 300 from D to D itself, within the allowance
of 500 and the balance of 10000000.  The request is valid and the call succeeds, but D is
both owner and recipient, and the one balance of D after the call is not both 300 below and
300 above the balance before it. -/
theorem C3_counterexample_self_transfer :
    specValidators.TransferFromRequest ⟨"D", "D", "@", "", 300⟩ = none
      ∧ (300 : U64) ≤ allowanceOf ledgerApproved ⟨"D", "S", "@", ""⟩
      ∧ 300 ≤ balanceOf ledgerApproved ⟨"D", "@", ""⟩
      ∧ (allowance.TransferFrom specValidators (contextOf "S" ledgerApproved)
          ⟨"D", "D", "@", "", 300⟩).1 = .ok ⟨"D", "D", 300⟩
      ∧ ¬ (balanceOf (allowance.TransferFrom specValidators (contextOf "S" ledgerApproved)
              ⟨"D", "D", "@", "", 300⟩).2.State ⟨"D", "@", ""⟩
            = balanceOf ledgerApproved ⟨"D", "@", ""⟩ - 300
          ∧ balanceOf (allowance.TransferFrom specValidators (contextOf "S" ledgerApproved)
              ⟨"D", "D", "@", "", 300⟩).2.State ⟨"D", "@", ""⟩
            = balanceOf ledgerApproved ⟨"D", "@", ""⟩ + 300) := by
  refine ⟨by decide, by decide, by decide, rfl, by decide⟩

/-- C4.  A valid `Approve` request by a caller whose resolved address differs from the
request's Owner fails with `ErrOwnerOnly` itself, and the handler leaves the context it
received: no allowance entry written, no event set, the store unchanged. -/
theorem C4_approve_owner_only (V : Validators) (ctx : Context)
    (req : allowance.ApproveRequest) (caller : account.AddressId)
    (hreq : V.ApproveRequest req = none)
    (hinv : ctx.Invoker = .ok caller)
    (hne : caller.Address ≠ req.Owner) :
    allowance.Approve V ctx req = (.error .ErrOwnerOnly, ctx) := by
  simp [allowance.Approve, hreq, account.GetInvokerAddress, hinv, hne]

/-- Witness of C4: S tries to approve on behalf of D. -/
theorem C4_approve_owner_only_witness :
    "S" ≠ "D"
      ∧ allowance.Approve specValidators (contextOf "S" ledgerBootstrapped)
          ⟨"D", "S", "@", "", 500⟩
        = (.error .ErrOwnerOnly, contextOf "S" ledgerBootstrapped) :=
  ⟨by decide,
    C4_approve_owner_only specValidators (contextOf "S" ledgerBootstrapped)
      ⟨"D", "S", "@", "", 500⟩ ⟨"S"⟩ (by decide) rfl (by decide)⟩

/-- C5.  A valid `Approve` request by a caller whose address is the request's Owner succeeds
and returns the record (Owner, Spender, Symbol, Group, Amount) of the request; a following
`GetAllowance` on (Owner, Spender, Symbol, Group) returns exactly that record, whatever
amount was stored before; and the same `Approve` applied a second time leaves the allowance
store (and the whole state) as the first application left it. -/
theorem C5_approve_overwrites (V : Validators) (ctx : Context)
    (req : allowance.ApproveRequest) (caller : account.AddressId)
    (hreq : V.ApproveRequest req = none)
    (hinv : ctx.Invoker = .ok caller)
    (howner : caller.Address = req.Owner)
    (hid : V.AllowanceId ⟨req.Owner, req.Spender, req.Symbol, req.Group⟩ = none) :
    (allowance.Approve V ctx req).1
        = .ok { Owner := req.Owner, Spender := req.Spender, Symbol := req.Symbol,
                Group := req.Group, Amount := req.Amount }
      ∧ (allowance.GetAllowance V (allowance.Approve V ctx req).2
            ⟨req.Owner, req.Spender, req.Symbol, req.Group⟩).1
          = (allowance.Approve V ctx req).1
      ∧ (allowance.Approve V (allowance.Approve V ctx req).2 req).1
          = (allowance.Approve V ctx req).1
      ∧ (allowance.Approve V (allowance.Approve V ctx req).2 req).2.State
          = (allowance.Approve V ctx req).2.State := by
  have hno : ¬ caller.Address ≠ req.Owner := not_not.mpr howner
  have h1 : allowance.Approve V ctx req =
      (.ok { Owner := req.Owner, Spender := req.Spender, Symbol := req.Symbol,
             Group := req.Group, Amount := req.Amount },
        allowance.Event.Set
          (allowance.State.Put ctx
            { Owner := req.Owner, Spender := req.Spender, Symbol := req.Symbol,
              Group := req.Group, Amount := req.Amount })
          (.Approved req.Owner req.Spender req.Amount)) := by
    simp [allowance.Approve, hreq, account.GetInvokerAddress, hinv, hno]
  have h2 : allowance.Approve V
      (allowance.Event.Set
        (allowance.State.Put ctx
          { Owner := req.Owner, Spender := req.Spender, Symbol := req.Symbol,
            Group := req.Group, Amount := req.Amount })
        (.Approved req.Owner req.Spender req.Amount)) req =
      (.ok { Owner := req.Owner, Spender := req.Spender, Symbol := req.Symbol,
             Group := req.Group, Amount := req.Amount },
        allowance.Event.Set
          (allowance.State.Put
            (allowance.Event.Set
              (allowance.State.Put ctx
                { Owner := req.Owner, Spender := req.Spender, Symbol := req.Symbol,
                  Group := req.Group, Amount := req.Amount })
              (.Approved req.Owner req.Spender req.Amount))
            { Owner := req.Owner, Spender := req.Spender, Symbol := req.Symbol,
              Group := req.Group, Amount := req.Amount })
          (.Approved req.Owner req.Spender req.Amount)) := by
    have hinv2 : (allowance.Event.Set
        (allowance.State.Put ctx
          { Owner := req.Owner, Spender := req.Spender, Symbol := req.Symbol,
            Group := req.Group, Amount := req.Amount })
        (.Approved req.Owner req.Spender req.Amount)).Invoker = .ok caller := hinv
    simp [allowance.Approve, hreq, account.GetInvokerAddress, hinv2, hno]
  have hput : allowanceOf
      (allowance.State.Put ctx
        { Owner := req.Owner, Spender := req.Spender, Symbol := req.Symbol,
          Group := req.Group, Amount := req.Amount }).State
      (⟨req.Owner, req.Spender, req.Symbol, req.Group⟩ : allowance.AllowanceId)
      = req.Amount :=
    allowanceOf_Put_self ctx
      { Owner := req.Owner, Spender := req.Spender, Symbol := req.Symbol,
        Group := req.Group, Amount := req.Amount }
  refine ⟨?_, ?_, ?_, ?_⟩
  · rw [h1]
  · rw [h1, GetAllowance_eq V _ _ hid]
    simp only [State_Event_Set, hput]
  · rw [h1, h2]
  · rw [h1, h2]
    simp only [allowance.Event.Set, allowance.State.Put, StatePut_StatePut_self]

/-- Witness of C5, section 8: D approves S for 500 over a stored allowance of 200. -/
theorem C5_approve_overwrites_witness :
    (allowance.Approve specValidators (contextOf "D" ledgerSpent) ⟨"D", "S", "@", "", 500⟩).1
        = .ok ⟨"D", "S", "@", "", 500⟩
      ∧ (allowance.GetAllowance specValidators
          (allowance.Approve specValidators (contextOf "D" ledgerSpent)
            ⟨"D", "S", "@", "", 500⟩).2 ⟨"D", "S", "@", ""⟩).1
        = (allowance.Approve specValidators (contextOf "D" ledgerSpent)
            ⟨"D", "S", "@", "", 500⟩).1 :=
  have h := C5_approve_overwrites specValidators (contextOf "D" ledgerSpent)
    ⟨"D", "S", "@", "", 500⟩ ⟨"D"⟩ (by decide) rfl rfl (by decide)
  ⟨h.1, h.2.1⟩

/-- C6.  `GetAllowance` on an id that passes validation and has no stored entry succeeds (the
not-found error of the store is not returned) with the record (Owner, Spender, Symbol, Group)
of the id and Amount 0; the context is left as it was, nothing is stored, and a second call
on the resulting context returns the same record. -/
theorem C6_getAllowance_absent (V : Validators) (ctx : Context) (id : allowance.AllowanceId)
    (hid : V.AllowanceId id = none)
    (habsent : StateGet allowance.Allowance.Id id ctx.State.Allowances = none) :
    allowance.GetAllowance V ctx id
        = (.ok { Owner := id.Owner, Spender := id.Spender, Symbol := id.Symbol,
                 Group := id.Group, Amount := 0 }, ctx)
      ∧ allowance.GetAllowance V (allowance.GetAllowance V ctx id).2 id
        = allowance.GetAllowance V ctx id
      ∧ StateGet allowance.Allowance.Id id
          (allowance.GetAllowance V ctx id).2.State.Allowances = none := by
  have h : allowance.GetAllowance V ctx id
      = (.ok { Owner := id.Owner, Spender := id.Spender, Symbol := id.Symbol,
               Group := id.Group, Amount := 0 }, ctx) := by
    simp [allowance.GetAllowance, hid, allowance.State.Get, habsent, Error.Is]
  refine ⟨h, ?_, ?_⟩
  · rw [h]; exact h
  · rw [h]; exact habsent

/-- Witness of C6: the never-approved pair (D, X) in the bootstrapped state. -/
theorem C6_getAllowance_absent_witness :
    StateGet allowance.Allowance.Id ⟨"D", "X", "@", ""⟩ ledgerApproved.Allowances = none
      ∧ allowance.GetAllowance specValidators (contextOf "X" ledgerApproved) ⟨"D", "X", "@", ""⟩
        = (.ok ⟨"D", "X", "@", "", 0⟩, contextOf "X" ledgerApproved) :=
  ⟨by decide,
    (C6_getAllowance_absent specValidators (contextOf "X" ledgerApproved) ⟨"D", "X", "@", ""⟩
      (by decide) (by decide)).1⟩

/-- C7, amended.  Take a state in which the token type of `Token` does not exist and no
balance of it is held, let `Init` run there for a deployer whose identity resolves, and let
any finite sequence of `Approve` and `TransferFrom` invocations follow, by any callers, with
any requests, successful or failed, among them no successful `TransferFrom` of a positive
amount whose Owner is also its Recipient.  In the state the sequence leaves, the balances of
the token's (Symbol, Group) sum to `Token.TotalSupply`, which is 10000000. -/
theorem C7_conservation (V : Validators) (w0 : Ledger) (deployer : account.AddressId)
    (calls : List Invocation)
    (habsent : StateGet config.TokenType.Id (erc20.Token.Symbol, erc20.Token.Group)
      w0.Tokens = none)
    (hzero : totalBalance w0 erc20.Token.Symbol erc20.Token.Group = 0)
    (hself : anySelfTransfer V (Invoke erc20.Init (.ok deployer) w0).2.1 calls = false) :
    totalBalance (run V (Invoke erc20.Init (.ok deployer) w0).2.1 calls)
        erc20.Token.Symbol erc20.Token.Group = erc20.Token.TotalSupply.val
      ∧ erc20.Token.TotalSupply.val = 10000000 := by
  have hinit := Init_of_absent { Invoker := .ok deployer, State := w0, Events := [] } deployer
    rfl habsent
  have hok : (erc20.Init { Invoker := .ok deployer, State := w0, Events := [] }).1 = .ok () := by
    rw [hinit]
  have hput := totalBalance_Store_Put
    { Invoker := .ok deployer
      State :=
        { Allowances := w0.Allowances
          Balances := w0.Balances
          Tokens := StatePut config.TokenType.Id ⟨"@", "", 2, 10000000⟩ w0.Tokens }
      Events := [] }
    ⟨deployer.Address, "@", ""⟩ (balanceOf w0 ⟨deployer.Address, "@", ""⟩ + 10000000) "@" ""
  have hz : totalBalance w0 "@" "" = 0 := hzero
  have hb : balanceOf
      ({ Allowances := w0.Allowances
         Balances := w0.Balances
         Tokens := StatePut config.TokenType.Id ⟨"@", "", 2, 10000000⟩ w0.Tokens } : Ledger)
      ⟨deployer.Address, "@", ""⟩ = balanceOf w0 ⟨deployer.Address, "@", ""⟩ := rfl
  have ht : totalBalance
      ({ Allowances := w0.Allowances
         Balances := w0.Balances
         Tokens := StatePut config.TokenType.Id ⟨"@", "", 2, 10000000⟩ w0.Tokens } : Ledger)
      "@" "" = totalBalance w0 "@" "" := rfl
  simp only [and_self, if_true, hb, ht, hz] at hput
  have hfinal : totalBalance
      (balance.Store.Put
        { Invoker := .ok deployer
          State :=
            { Allowances := w0.Allowances
              Balances := w0.Balances
              Tokens := StatePut config.TokenType.Id ⟨"@", "", 2, 10000000⟩ w0.Tokens }
          Events := [] }
        ⟨deployer.Address, "@", ""⟩
        (balanceOf w0 ⟨deployer.Address, "@", ""⟩ + 10000000)).State "@" ""
      = 10000000 := by
    omega
  refine ⟨?_, by decide⟩
  rw [totalBalance_run V calls _ _ _ hself,
    Invoke_of_ok erc20.Init (.ok deployer) w0 () hok, hinit]
  exact hfinal

/-- Witness of C7: the deployer D bootstraps the empty state and approves S for 500; S moves
300 to R; a request of S for 300 from D to D itself is refused, the allowance left being 200;
a request of S for 0 from D to D itself succeeds. -/
theorem C7_conservation_witness :
    anySelfTransfer specValidators (Invoke erc20.Init (.ok ⟨"D"⟩) genesis).2.1
        sequenceConserving = false
      ∧ totalBalance
          (run specValidators (Invoke erc20.Init (.ok ⟨"D"⟩) genesis).2.1 sequenceConserving)
          erc20.Token.Symbol erc20.Token.Group = erc20.Token.TotalSupply.val :=
  ⟨by decide,
    (C7_conservation specValidators genesis ⟨"D"⟩ sequenceConserving (by decide) (by decide)
      (by decide)).1⟩

/-- Counterexample to C7 as stated: the deployer D bootstraps the empty state and approves S
for 500, then S transfers 300 from D to D itself.  Both invocations succeed.  `Store.Transfer`
computes both new balances of D from the 10000000 read before any write and writes 9999700
and then 10000300, so the balances of the token sum to 10000300, not to `Token.TotalSupply`. -/
theorem C7_counterexample_self_transfer :
    StateGet config.TokenType.Id (erc20.Token.Symbol, erc20.Token.Group) genesis.Tokens = none
      ∧ totalBalance genesis erc20.Token.Symbol erc20.Token.Group = 0
      ∧ (Invoke (fun ctx => allowance.TransferFrom specValidators ctx ⟨"D", "D", "@", "", 300⟩)
          (.ok ⟨"S"⟩)
          (run specValidators (Invoke erc20.Init (.ok ⟨"D"⟩) genesis).2.1
            [⟨.ok ⟨"D"⟩, .Approve ⟨"D", "S", "@", "", 500⟩⟩])).1 = .ok ⟨"D", "D", 300⟩
      ∧ totalBalance
          (run specValidators (Invoke erc20.Init (.ok ⟨"D"⟩) genesis).2.1 sequenceSelfTransfer)
          erc20.Token.Symbol erc20.Token.Group = 10000300
      ∧ ¬ (totalBalance
            (run specValidators (Invoke erc20.Init (.ok ⟨"D"⟩) genesis).2.1
              sequenceSelfTransfer)
            erc20.Token.Symbol erc20.Token.Group = erc20.Token.TotalSupply.val) := by
  refine ⟨by decide, by decide, rfl, by decide, by decide⟩

/-- C8.  The allowance check of `TransferFrom` is strict: a valid request whose Amount equals
the current allowance exactly, and does not exceed the owner's balance, does not fail with
`ErrAllowanceInsufficient`; it succeeds and leaves an allowance of 0, which a following
`GetAllowance` reports. -/
theorem C8_transferFrom_exact_allowance (V : Validators) (ctx : Context)
    (req : allowance.TransferFromRequest) (caller : account.AddressId)
    (hreq : V.TransferFromRequest req = none)
    (hinv : ctx.Invoker = .ok caller)
    (hid : V.AllowanceId ⟨req.Owner, caller.Address, req.Symbol, req.Group⟩ = none)
    (heq : req.Amount
      = allowanceOf ctx.State ⟨req.Owner, caller.Address, req.Symbol, req.Group⟩)
    (hbal : req.Amount.val ≤ balanceOf ctx.State ⟨req.Owner, req.Symbol, req.Group⟩) :
    failsWith (allowance.TransferFrom V ctx req).1 .ErrAllowanceInsufficient = false
      ∧ (allowance.TransferFrom V ctx req).1
        = .ok { Owner := req.Owner, Recipient := req.Recipient, Amount := req.Amount }
      ∧ allowanceOf (allowance.TransferFrom V ctx req).2.State
          ⟨req.Owner, caller.Address, req.Symbol, req.Group⟩ = 0
      ∧ (allowance.GetAllowance V (allowance.TransferFrom V ctx req).2
            ⟨req.Owner, caller.Address, req.Symbol, req.Group⟩).1
          = .ok { Owner := req.Owner, Spender := caller.Address, Symbol := req.Symbol,
                  Group := req.Group, Amount := 0 } := by
  have hallow : req.Amount
      ≤ allowanceOf ctx.State ⟨req.Owner, caller.Address, req.Symbol, req.Group⟩ :=
    le_of_eq heq
  have h := TransferFrom_of_sufficient V ctx req caller hreq hinv hid hallow hbal
  have hput : allowanceOf
      (allowance.State.Put ctx
        { Owner := req.Owner, Spender := caller.Address, Symbol := req.Symbol,
          Group := req.Group,
          Amount := allowanceOf ctx.State
            ⟨req.Owner, caller.Address, req.Symbol, req.Group⟩ - req.Amount }).State
      (⟨req.Owner, caller.Address, req.Symbol, req.Group⟩ : allowance.AllowanceId)
      = 0 := by
    have := allowanceOf_Put_self ctx
      { Owner := req.Owner, Spender := caller.Address, Symbol := req.Symbol,
        Group := req.Group,
        Amount := allowanceOf ctx.State ⟨req.Owner, caller.Address, req.Symbol, req.Group⟩
          - req.Amount }
    rw [← heq, sub_self] at this
    rw [← heq, sub_self]
    exact this
  rw [h]
  refine ⟨rfl, rfl, ?_, ?_⟩
  · simp only [State_Event_Set, allowanceOf_Store_Put, hput]
  · rw [GetAllowance_eq V _ _ hid]
    simp only [State_Event_Set, allowanceOf_Store_Put, hput]

/-- Witness of C8: S spends the whole allowance of 500. -/
theorem C8_transferFrom_exact_allowance_witness :
    (500 : U64) = allowanceOf ledgerApproved ⟨"D", "S", "@", ""⟩
      ∧ (allowance.TransferFrom specValidators (contextOf "S" ledgerApproved)
          ⟨"D", "R", "@", "", 500⟩).1 = .ok ⟨"D", "R", 500⟩
      ∧ allowanceOf (allowance.TransferFrom specValidators (contextOf "S" ledgerApproved)
          ⟨"D", "R", "@", "", 500⟩).2.State ⟨"D", "S", "@", ""⟩ = 0 :=
  have h := C8_transferFrom_exact_allowance specValidators (contextOf "S" ledgerApproved)
    ⟨"D", "R", "@", "", 500⟩ ⟨"S"⟩ (by decide) rfl (by decide) (by decide) (by decide)
  ⟨by decide, h.2.1, h.2.2.1⟩

/-- C9.  When `Init` runs on a state in which the token type of `Token` does not exist, for
an invoker whose identity resolves, it succeeds; the token type ("@", "", 2, 10000000) is
stored; the balance of the invoker's address for symbol "@" and the empty group has grown
by exactly `Token.TotalSupply`, 10000000; every other balance, and every allowance, is as
before. -/
theorem C9_init_mints (ctx : Context) (deployer : account.AddressId)
    (hinv : ctx.Invoker = .ok deployer)
    (habsent : StateGet config.TokenType.Id (erc20.Token.Symbol, erc20.Token.Group)
      ctx.State.Tokens = none) :
    (erc20.Init ctx).1 = .ok ()
      ∧ StateGet config.TokenType.Id ("@", "") (erc20.Init ctx).2.State.Tokens
        = some { Symbol := "@", Group := "", Decimals := 2, TotalSupply := 10000000 }
      ∧ balanceOf (erc20.Init ctx).2.State ⟨deployer.Address, "@", ""⟩
        = balanceOf ctx.State ⟨deployer.Address, "@", ""⟩ + erc20.Token.TotalSupply.val
      ∧ erc20.Token.TotalSupply.val = 10000000
      ∧ (∀ id : balance.BalanceId, id ≠ ⟨deployer.Address, "@", ""⟩ →
          balanceOf (erc20.Init ctx).2.State id = balanceOf ctx.State id)
      ∧ (erc20.Init ctx).2.State.Allowances = ctx.State.Allowances := by
  rw [Init_of_absent ctx deployer hinv habsent]
  refine ⟨rfl, ?_, ?_, by decide, ?_, rfl⟩
  · exact StateGet_StatePut_self config.TokenType.Id
      { Symbol := "@", Group := "", Decimals := 2, TotalSupply := 10000000 } ctx.State.Tokens
  · exact balanceOf_Put_self _ _ _
  · intro id hne
    exact balanceOf_Put_of_ne _ _ _ _ (Ne.symm hne)

/-- Witness of C9: D deploys on the empty state and holds 10000000 afterwards. -/
theorem C9_init_mints_witness :
    (erc20.Init (contextOf "D" genesis)).1 = .ok ()
      ∧ balanceOf (erc20.Init (contextOf "D" genesis)).2.State ⟨"D", "@", ""⟩
        = balanceOf genesis ⟨"D", "@", ""⟩ + erc20.Token.TotalSupply.val
      ∧ balanceOf genesis ⟨"D", "@", ""⟩ + erc20.Token.TotalSupply.val = 10000000 :=
  have h := C9_init_mints (contextOf "D" genesis) ⟨"D"⟩ rfl (by decide)
  ⟨h.1, h.2.2.1, by decide⟩

/-- C10.  When `Init` runs on a state in which the token type already exists, so that
`CreateDefaultToken` reports `ErrTokenAlreadyExists`, it returns success and leaves the
context as it was, whoever the invoker is and whether or not the identity resolves: nothing
is minted.  Consequently an `Init` invocation that follows a successful `Init` invocation
succeeds and commits the state the first one left. -/
theorem C10_init_idempotent (ctx : Context) (w : Ledger)
    (first second : Except Error account.AddressId) :
    ((StateGet config.TokenType.Id (erc20.Token.Symbol, erc20.Token.Group)
          ctx.State.Tokens).isSome = true →
        (config.CreateDefaultToken ctx erc20.Token).1 = .error .ErrTokenAlreadyExists
          ∧ erc20.Init ctx = (.ok (), ctx))
      ∧ ((Invoke erc20.Init first w).1 = .ok () →
          Invoke erc20.Init second (Invoke erc20.Init first w).2.1
            = (.ok (), (Invoke erc20.Init first w).2.1, [])) := by
  constructor
  · intro hpresent
    refine ⟨?_, Init_of_present ctx hpresent⟩
    cases hget : StateGet config.TokenType.Id (erc20.Token.Symbol, erc20.Token.Group)
        ctx.State.Tokens with
    | none => rw [hget] at hpresent; cases hpresent
    | some t => simp [config.CreateDefaultToken, hget]
  · intro hfirst
    have hsecond : ∀ v : Ledger,
        (StateGet config.TokenType.Id (erc20.Token.Symbol, erc20.Token.Group)
          v.Tokens).isSome = true →
        Invoke erc20.Init second v = (.ok (), v, []) := by
      intro v hv
      have h := Init_of_present { Invoker := second, State := v, Events := [] } hv
      rw [Invoke_of_ok erc20.Init second v () (by rw [h]), h]
    apply hsecond
    cases hget : StateGet config.TokenType.Id (erc20.Token.Symbol, erc20.Token.Group)
        w.Tokens with
    | some t =>
      have h := Init_of_present { Invoker := first, State := w, Events := [] }
        (by show (StateGet config.TokenType.Id _ w.Tokens).isSome = true; rw [hget]; rfl)
      rw [Invoke_of_ok erc20.Init first w () (by rw [h]), h]
      show (StateGet config.TokenType.Id _ w.Tokens).isSome = true
      rw [hget]; rfl
    | none =>
      cases first with
      | error e =>
        have : (erc20.Init { Invoker := .error e, State := w, Events := [] }).1
            = .error e := by
          simp [erc20.Init, config.CreateDefaultToken, hget, account.GetInvokerAddress]
        rw [Invoke_of_error erc20.Init (.error e) w e this] at hfirst
        cases hfirst
      | ok deployer =>
        have h := Init_of_absent { Invoker := .ok deployer, State := w, Events := [] }
          deployer rfl hget
        rw [Invoke_of_ok erc20.Init (.ok deployer) w () (by rw [h]), h]
        show (StateGet config.TokenType.Id ("@", "")
          (StatePut config.TokenType.Id ⟨"@", "", 2, 10000000⟩ w.Tokens)).isSome = true
        have hs : StateGet config.TokenType.Id ("@", "")
            (StatePut config.TokenType.Id ⟨"@", "", 2, 10000000⟩ w.Tokens)
            = some ⟨"@", "", 2, 10000000⟩ :=
          StateGet_StatePut_self config.TokenType.Id
            { Symbol := "@", Group := "", Decimals := 2, TotalSupply := 10000000 } w.Tokens
        rw [hs]
        rfl

/-- Witness of C10: E invokes `Init` on the state D has bootstrapped; D deploys twice. -/
theorem C10_init_idempotent_witness :
    erc20.Init (contextOf "E" ledgerBootstrapped) = (.ok (), contextOf "E" ledgerBootstrapped)
      ∧ Invoke erc20.Init (.ok ⟨"E"⟩) (Invoke erc20.Init (.ok ⟨"D"⟩) genesis).2.1
        = (.ok (), (Invoke erc20.Init (.ok ⟨"D"⟩) genesis).2.1, []) :=
  have h := C10_init_idempotent (contextOf "E" ledgerBootstrapped) genesis
    (.ok ⟨"D"⟩) (.ok ⟨"E"⟩)
  ⟨(h.1 (by decide)).2, h.2 rfl⟩

/-! ## `TransferFrom`, the failing paths before the allowance write -/

theorem TransferFrom_of_invalid (V : Validators) (ctx : Context)
    (req : allowance.TransferFromRequest) (err : Error)
    (hreq : V.TransferFromRequest req = some err) :
    allowance.TransferFrom V ctx req = (.error err, ctx) := by
  simp [allowance.TransferFrom, hreq]

theorem TransferFrom_of_unresolved (V : Validators) (ctx : Context)
    (req : allowance.TransferFromRequest) (err : Error)
    (hreq : V.TransferFromRequest req = none)
    (hinv : ctx.Invoker = .error err) :
    allowance.TransferFrom V ctx req = (.error err, ctx) := by
  simp [allowance.TransferFrom, hreq, account.GetInvokerAddress, hinv]

theorem TransferFrom_of_invalid_id (V : Validators) (ctx : Context)
    (req : allowance.TransferFromRequest) (caller : account.AddressId) (err : Error)
    (hreq : V.TransferFromRequest req = none)
    (hinv : ctx.Invoker = .ok caller)
    (hid : V.AllowanceId ⟨req.Owner, caller.Address, req.Symbol, req.Group⟩ = some err) :
    allowance.TransferFrom V ctx req = (.error err, ctx) := by
  simp [allowance.TransferFrom, hreq, account.GetInvokerAddress, hinv, allowance.GetAllowance,
    hid]

theorem TransferFrom_of_allowance_lt (V : Validators) (ctx : Context)
    (req : allowance.TransferFromRequest) (caller : account.AddressId)
    (hreq : V.TransferFromRequest req = none)
    (hinv : ctx.Invoker = .ok caller)
    (hid : V.AllowanceId ⟨req.Owner, caller.Address, req.Symbol, req.Group⟩ = none)
    (hlt : allowanceOf ctx.State ⟨req.Owner, caller.Address, req.Symbol, req.Group⟩
      < req.Amount) :
    allowance.TransferFrom V ctx req
      = (.error (.wrap
          ("request trasfer amount=" ++ toString req.Amount ++ ", allowance="
            ++ toString
              (allowanceOf ctx.State ⟨req.Owner, caller.Address, req.Symbol, req.Group⟩))
          .ErrAllowanceInsufficient), ctx) := by
  simp [allowance.TransferFrom, hreq, account.GetInvokerAddress, hinv,
    GetAllowance_eq V ctx _ hid, hlt]

/-- The context `TransferFrom` returns is the one it received, or the one it received with the
allowance of (Owner, caller, Symbol, Group) overwritten by the old amount minus the requested
one, the requested amount being within the old one, and balances written on top. -/
theorem TransferFrom_Allowances (V : Validators) (ctx : Context)
    (req : allowance.TransferFromRequest) :
    (allowance.TransferFrom V ctx req).2.State.Allowances = ctx.State.Allowances
      ∨ ∃ caller, ctx.Invoker = .ok caller
          ∧ V.TransferFromRequest req = none
          ∧ V.AllowanceId ⟨req.Owner, caller.Address, req.Symbol, req.Group⟩ = none
          ∧ req.Amount
            ≤ allowanceOf ctx.State ⟨req.Owner, caller.Address, req.Symbol, req.Group⟩
          ∧ (allowance.TransferFrom V ctx req).2.State.Allowances
            = StatePut allowance.Allowance.Id
                { Owner := req.Owner, Spender := caller.Address, Symbol := req.Symbol,
                  Group := req.Group,
                  Amount := allowanceOf ctx.State
                    ⟨req.Owner, caller.Address, req.Symbol, req.Group⟩ - req.Amount }
                ctx.State.Allowances := by
  cases hreq : V.TransferFromRequest req with
  | some e => left; rw [TransferFrom_of_invalid V ctx req e hreq]
  | none =>
    cases hinv : ctx.Invoker with
    | error e => left; rw [TransferFrom_of_unresolved V ctx req e hreq hinv]
    | ok caller =>
      cases hid : V.AllowanceId ⟨req.Owner, caller.Address, req.Symbol, req.Group⟩ with
      | some e => left; rw [TransferFrom_of_invalid_id V ctx req caller e hreq hinv hid]
      | none =>
        by_cases hlt : allowanceOf ctx.State ⟨req.Owner, caller.Address, req.Symbol, req.Group⟩
            < req.Amount
        · left; rw [TransferFrom_of_allowance_lt V ctx req caller hreq hinv hid hlt]
        · right
          refine ⟨caller, rfl, rfl, hid, not_lt.mp hlt, ?_⟩
          by_cases hb : balanceOf ctx.State ⟨req.Owner, req.Symbol, req.Group⟩ < req.Amount.val
          · rw [TransferFrom_of_insufficient_balance V ctx req caller hreq hinv hid
              (not_lt.mp hlt) hb]
            rfl
          · rw [TransferFrom_of_sufficient V ctx req caller hreq hinv hid
              (not_lt.mp hlt) (not_lt.mp hb)]
            rfl

/-! ## `Approve`, path by path -/

theorem Approve_of_owner (V : Validators) (ctx : Context)
    (req : allowance.ApproveRequest) (caller : account.AddressId)
    (hreq : V.ApproveRequest req = none)
    (hinv : ctx.Invoker = .ok caller)
    (howner : caller.Address = req.Owner) :
    allowance.Approve V ctx req =
      (.ok { Owner := req.Owner, Spender := req.Spender, Symbol := req.Symbol,
             Group := req.Group, Amount := req.Amount },
        allowance.Event.Set
          (allowance.State.Put ctx
            { Owner := req.Owner, Spender := req.Spender, Symbol := req.Symbol,
              Group := req.Group, Amount := req.Amount })
          (.Approved req.Owner req.Spender req.Amount)) := by
  have hno : ¬ caller.Address ≠ req.Owner := not_not.mpr howner
  simp [allowance.Approve, hreq, account.GetInvokerAddress, hinv, hno]

/-- The context `Approve` returns is the one it received, unless the request is valid and the
caller is the owner named in it. -/
theorem Approve_unchanged_or_owner (V : Validators) (ctx : Context)
    (req : allowance.ApproveRequest) :
    ((∃ err, (allowance.Approve V ctx req).1 = .error err)
        ∧ (allowance.Approve V ctx req).2 = ctx)
      ∨ ∃ caller, ctx.Invoker = .ok caller ∧ caller.Address = req.Owner
          ∧ V.ApproveRequest req = none := by
  cases hreq : V.ApproveRequest req with
  | some e => left; simp [allowance.Approve, hreq]
  | none =>
    cases hinv : ctx.Invoker with
    | error e => left; simp [allowance.Approve, hreq, account.GetInvokerAddress, hinv]
    | ok caller =>
      by_cases howner : caller.Address = req.Owner
      · right; exact ⟨caller, rfl, howner, rfl⟩
      · left; simp [allowance.Approve, hreq, account.GetInvokerAddress, hinv, howner]

/-! ## The claims, continued -/

/-- C11, amended.  An `Approve` by a caller with resolved address C that creates or changes
the stored allowance entry of a key changes the key (Owner, Spender, Symbol, Group) of its
request, and Owner = C.  A `TransferFrom` by a caller with resolved address C that creates or
changes the stored entry of a key changes the key (Owner of the request, C, Symbol, Group):
the entry that names C as spender, whoever the owner is. -/
theorem C11_allowance_writers (V : Validators) (ctx : Context) (caller : account.AddressId)
    (k : allowance.AllowanceId)
    (hinv : ctx.Invoker = .ok caller) :
    (∀ req : allowance.ApproveRequest,
        StateGet allowance.Allowance.Id k (allowance.Approve V ctx req).2.State.Allowances
          ≠ StateGet allowance.Allowance.Id k ctx.State.Allowances →
        k = ⟨req.Owner, req.Spender, req.Symbol, req.Group⟩ ∧ k.Owner = caller.Address)
      ∧ (∀ req : allowance.TransferFromRequest,
        StateGet allowance.Allowance.Id k (allowance.TransferFrom V ctx req).2.State.Allowances
          ≠ StateGet allowance.Allowance.Id k ctx.State.Allowances →
        k = ⟨req.Owner, caller.Address, req.Symbol, req.Group⟩
          ∧ k.Spender = caller.Address) := by
  constructor
  · intro req hdiff
    rcases Approve_unchanged_or_owner V ctx req with ⟨_, hsame⟩ | ⟨c, hc, howner, hreq⟩
    · rw [hsame] at hdiff
      exact absurd rfl hdiff
    · rw [hinv] at hc
      cases hc
      rw [Approve_of_owner V ctx req caller hreq hinv howner] at hdiff
      by_cases hk : k = ⟨req.Owner, req.Spender, req.Symbol, req.Group⟩
      · refine ⟨hk, ?_⟩
        rw [hk]
        exact howner.symm
      · exfalso
        apply hdiff
        exact StateGet_StatePut_of_ne allowance.Allowance.Id
          { Owner := req.Owner, Spender := req.Spender, Symbol := req.Symbol,
            Group := req.Group, Amount := req.Amount } k ctx.State.Allowances
          (fun e => hk e.symm)
  · intro req hdiff
    rcases TransferFrom_Allowances V ctx req with hsame | ⟨c, hc, _, _, _, hput⟩
    · rw [hsame] at hdiff
      exact absurd rfl hdiff
    · rw [hinv] at hc
      cases hc
      rw [hput] at hdiff
      by_cases hk : k = ⟨req.Owner, caller.Address, req.Symbol, req.Group⟩
      · refine ⟨hk, ?_⟩
        rw [hk]
      · exfalso
        apply hdiff
        exact StateGet_StatePut_of_ne allowance.Allowance.Id
          { Owner := req.Owner, Spender := caller.Address, Symbol := req.Symbol,
            Group := req.Group,
            Amount := allowanceOf ctx.State
              ⟨req.Owner, caller.Address, req.Symbol, req.Group⟩ - req.Amount }
          k ctx.State.Allowances (fun e => hk e.symm)

/-- Witness of C11: the entry S changes by transferring 300 from D names S as spender. -/
theorem C11_allowance_writers_witness :
    StateGet allowance.Allowance.Id ⟨"D", "S", "@", ""⟩
        (allowance.TransferFrom specValidators (contextOf "S" ledgerApproved)
          ⟨"D", "R", "@", "", 300⟩).2.State.Allowances
        ≠ StateGet allowance.Allowance.Id ⟨"D", "S", "@", ""⟩
            (contextOf "S" ledgerApproved).State.Allowances
      ∧ (⟨"D", "S", "@", ""⟩ : allowance.AllowanceId).Spender = "S" :=
  ⟨by decide,
    ((C11_allowance_writers specValidators (contextOf "S" ledgerApproved) ⟨"S"⟩
      ⟨"D", "S", "@", ""⟩ rfl).2 ⟨"D", "R", "@", "", 300⟩ (by decide)).2⟩

/-- Counterexample to C11 as stated: S, who is not the owner D, invokes `TransferFrom` for 300
from D to R.  The invocation succeeds and the committed entry of the key (D, S, "@", "") has
changed from 500 to 200, although the owner D named by the key is not the caller S. -/
theorem C11_counterexample_spender_modifies :
    StateGet allowance.Allowance.Id ⟨"D", "S", "@", ""⟩ ledgerApproved.Allowances
        = some ⟨"D", "S", "@", "", 500⟩
      ∧ (Invoke (fun ctx => allowance.TransferFrom specValidators ctx ⟨"D", "R", "@", "", 300⟩)
          (.ok ⟨"S"⟩) ledgerApproved).1 = .ok ⟨"D", "R", 300⟩
      ∧ StateGet allowance.Allowance.Id ⟨"D", "S", "@", ""⟩
          (Invoke (fun ctx => allowance.TransferFrom specValidators ctx ⟨"D", "R", "@", "", 300⟩)
            (.ok ⟨"S"⟩) ledgerApproved).2.1.Allowances
        = some ⟨"D", "S", "@", "", 200⟩
      ∧ (⟨"D", "S", "@", ""⟩ : allowance.AllowanceId).Owner ≠ "S" := by
  refine ⟨by decide, rfl, by decide, by decide⟩

theorem StateGet_StatePut_isSome {α κ : Type} [DecidableEq κ] (key : α → κ) (a : α) (k : κ)
    (s : List α) (h : (StateGet key k s).isSome = true) :
    (StateGet key k (StatePut key a s)).isSome = true := by
  by_cases hk : key a = k
  · rw [← hk, StateGet_StatePut_self]; rfl
  · rw [StateGet_StatePut_of_ne key a k s hk]; exact h

theorem allowanceOf_of_absent (w : Ledger) (k : allowance.AllowanceId)
    (h : StateGet allowance.Allowance.Id k w.Allowances = none) : allowanceOf w k = 0 := by
  simp [allowanceOf, h]

theorem allowanceOf_congr (w v : Ledger) (k : allowance.AllowanceId)
    (h : StateGet allowance.Allowance.Id k w.Allowances
      = StateGet allowance.Allowance.Id k v.Allowances) :
    allowanceOf w k = allowanceOf v k := by
  unfold allowanceOf
  rw [h]

theorem allowanceOf_of_StatePut_self (w : Ledger) (a : allowance.Allowance)
    (l : List allowance.Allowance)
    (h : w.Allowances = StatePut allowance.Allowance.Id a l) :
    allowanceOf w a.Id = a.Amount := by
  unfold allowanceOf
  rw [h, StateGet_StatePut_self]

theorem allowanceOf_of_StatePut_of_ne (w v : Ledger) (a : allowance.Allowance)
    (k : allowance.AllowanceId)
    (h : w.Allowances = StatePut allowance.Allowance.Id a v.Allowances) (hk : a.Id ≠ k) :
    allowanceOf w k = allowanceOf v k := by
  apply allowanceOf_congr
  rw [h, StateGet_StatePut_of_ne allowance.Allowance.Id a k v.Allowances hk]

/-- The allowance of a key after `TransferFrom` is the allowance before, or the requested
amount was within it and the allowance after is the true difference. -/
theorem TransferFrom_allowanceOf (V : Validators) (ctx : Context)
    (req : allowance.TransferFromRequest) (k : allowance.AllowanceId) :
    allowanceOf (allowance.TransferFrom V ctx req).2.State k = allowanceOf ctx.State k
      ∨ (req.Amount ≤ allowanceOf ctx.State k
          ∧ (allowanceOf (allowance.TransferFrom V ctx req).2.State k).val
            = (allowanceOf ctx.State k).val - req.Amount.val
          ∧ (allowanceOf (allowance.TransferFrom V ctx req).2.State k).val
              + req.Amount.val = (allowanceOf ctx.State k).val) := by
  rcases TransferFrom_Allowances V ctx req with hsame | ⟨c, _, _, _, hle, hput⟩
  · left
    exact allowanceOf_congr _ _ k (by rw [hsame])
  · by_cases hk : k = ⟨req.Owner, c.Address, req.Symbol, req.Group⟩
    · right
      subst hk
      have hval : allowanceOf (allowance.TransferFrom V ctx req).2.State
          ⟨req.Owner, c.Address, req.Symbol, req.Group⟩
          = allowanceOf ctx.State ⟨req.Owner, c.Address, req.Symbol, req.Group⟩
            - req.Amount :=
        allowanceOf_of_StatePut_self _
          { Owner := req.Owner, Spender := c.Address, Symbol := req.Symbol,
            Group := req.Group,
            Amount := allowanceOf ctx.State
              ⟨req.Owner, c.Address, req.Symbol, req.Group⟩ - req.Amount }
          ctx.State.Allowances hput
      have hsub := Fin.coe_sub_iff_le.mpr hle
      have hle2 : req.Amount.val
          ≤ (allowanceOf ctx.State ⟨req.Owner, c.Address, req.Symbol, req.Group⟩).val := hle
      refine ⟨hle, ?_, ?_⟩
      · rw [hval]; exact hsub
      · rw [hval, hsub]; omega
    · left
      exact allowanceOf_of_StatePut_of_ne _ ctx.State
        { Owner := req.Owner, Spender := c.Address, Symbol := req.Symbol,
          Group := req.Group,
          Amount := allowanceOf ctx.State
            ⟨req.Owner, c.Address, req.Symbol, req.Group⟩ - req.Amount }
        k hput (fun e => hk e.symm)

/-- C12.  The `uint64` subtraction of `TransferFrom` is reached only with the requested amount
within the stored allowance, so it does not wrap: for every context and request, the
allowance of every key after the call is the allowance before it, or the requested amount
was within the allowance before and the allowance after is the true difference of the two,
as natural numbers.  If the call succeeds or has written a balance, the requested amount,
which is the amount handed to the balance transfer, was within the stored allowance. -/
theorem C12_subtraction_never_wraps (V : Validators) (ctx : Context)
    (req : allowance.TransferFromRequest) :
    (∀ k : allowance.AllowanceId,
        allowanceOf (allowance.TransferFrom V ctx req).2.State k = allowanceOf ctx.State k
          ∨ (req.Amount ≤ allowanceOf ctx.State k
              ∧ (allowanceOf (allowance.TransferFrom V ctx req).2.State k).val
                = (allowanceOf ctx.State k).val - req.Amount.val
              ∧ (allowanceOf (allowance.TransferFrom V ctx req).2.State k).val
                  + req.Amount.val = (allowanceOf ctx.State k).val))
      ∧ (∀ caller : account.AddressId, ctx.Invoker = .ok caller →
          ((∃ r, (allowance.TransferFrom V ctx req).1 = .ok r)
            ∨ (allowance.TransferFrom V ctx req).2.State.Balances ≠ ctx.State.Balances) →
          req.Amount
            ≤ allowanceOf ctx.State ⟨req.Owner, caller.Address, req.Symbol, req.Group⟩) := by
  constructor
  · intro k
    exact TransferFrom_allowanceOf V ctx req k
  · intro caller hinv hdone
    by_contra hnle
    have hlt := not_le.mp hnle
    cases hreq : V.TransferFromRequest req with
    | some e =>
      rw [TransferFrom_of_invalid V ctx req e hreq] at hdone
      rcases hdone with ⟨r, hr⟩ | hb
      · cases hr
      · exact hb rfl
    | none =>
      cases hid : V.AllowanceId ⟨req.Owner, caller.Address, req.Symbol, req.Group⟩ with
      | some e =>
        rw [TransferFrom_of_invalid_id V ctx req caller e hreq hinv hid] at hdone
        rcases hdone with ⟨r, hr⟩ | hb
        · cases hr
        · exact hb rfl
      | none =>
        rw [TransferFrom_of_allowance_lt V ctx req caller hreq hinv hid hlt] at hdone
        rcases hdone with ⟨r, hr⟩ | hb
        · cases hr
        · exact hb rfl

/-- Witness of C12: S transfers 300 from D under an allowance of 500; the call succeeds, so
300 was within the allowance. -/
theorem C12_subtraction_never_wraps_witness :
    (300 : U64) ≤ allowanceOf (contextOf "S" ledgerApproved).State ⟨"D", "S", "@", ""⟩ :=
  (C12_subtraction_never_wraps specValidators (contextOf "S" ledgerApproved)
    ⟨"D", "R", "@", "", 300⟩).2 ⟨"S"⟩ rfl (Or.inl ⟨⟨"D", "R", 300⟩, rfl⟩)

theorem GetAllowance_context (V : Validators) (ctx : Context) (id : allowance.AllowanceId) :
    (allowance.GetAllowance V ctx id).2 = ctx := by
  unfold allowance.GetAllowance
  split
  · rfl
  · split
    · split <;> rfl
    · rfl

/-- C13, amended.  `GetAllowance` leaves the context as it is.  No call of `Approve` or
`TransferFrom` removes an allowance key.  `TransferFrom` adds a key only in one case: the key
is (Owner of the request, caller, Symbol, Group), it had no entry, and the requested Amount
is 0; the record it then stores has Amount 0.  So a `TransferFrom` with a positive Amount
leaves the set of allowance keys as it was. -/
theorem C13_allowance_keys (V : Validators) (ctx : Context) (k : allowance.AllowanceId) :
    (∀ id : allowance.AllowanceId, (allowance.GetAllowance V ctx id).2 = ctx)
      ∧ (∀ req : allowance.ApproveRequest,
          (StateGet allowance.Allowance.Id k ctx.State.Allowances).isSome = true →
          (StateGet allowance.Allowance.Id k
            (allowance.Approve V ctx req).2.State.Allowances).isSome = true)
      ∧ (∀ req : allowance.TransferFromRequest,
          (StateGet allowance.Allowance.Id k ctx.State.Allowances).isSome = true →
          (StateGet allowance.Allowance.Id k
            (allowance.TransferFrom V ctx req).2.State.Allowances).isSome = true)
      ∧ (∀ req : allowance.TransferFromRequest,
          StateGet allowance.Allowance.Id k ctx.State.Allowances = none →
          (StateGet allowance.Allowance.Id k
            (allowance.TransferFrom V ctx req).2.State.Allowances).isSome = true →
          req.Amount = 0
            ∧ ctx.Invoker = .ok ⟨k.Spender⟩
            ∧ k.Owner = req.Owner ∧ k.Symbol = req.Symbol ∧ k.Group = req.Group
            ∧ StateGet allowance.Allowance.Id k
                (allowance.TransferFrom V ctx req).2.State.Allowances
              = some { Owner := k.Owner, Spender := k.Spender, Symbol := k.Symbol,
                       Group := k.Group, Amount := 0 }) := by
  refine ⟨fun id => GetAllowance_context V ctx id, ?_, ?_, ?_⟩
  · intro req hsome
    rcases Approve_unchanged_or_owner V ctx req with ⟨_, hsame⟩ | ⟨c, hc, howner, hreq⟩
    · rw [hsame]; exact hsome
    · rw [Approve_of_owner V ctx req c hreq hc howner]
      exact StateGet_StatePut_isSome allowance.Allowance.Id _ k ctx.State.Allowances hsome
  · intro req hsome
    rcases TransferFrom_Allowances V ctx req with hsame | ⟨c, _, _, _, _, hput⟩
    · rw [hsame]; exact hsome
    · rw [hput]
      exact StateGet_StatePut_isSome allowance.Allowance.Id _ k ctx.State.Allowances hsome
  · intro req hnone hsome
    rcases TransferFrom_Allowances V ctx req with hsame | ⟨c, hc, _, _, hle, hput⟩
    · rw [hsame, hnone] at hsome
      cases hsome
    · by_cases hk : k = ⟨req.Owner, c.Address, req.Symbol, req.Group⟩
      · subst hk
        have hzero : allowanceOf ctx.State ⟨req.Owner, c.Address, req.Symbol, req.Group⟩ = 0 :=
          allowanceOf_of_absent ctx.State _ hnone
        rw [hzero] at hle hput
        have hamount : req.Amount = 0 := le_antisymm hle (Fin.zero_le _)
        rw [hamount, sub_zero] at hput
        refine ⟨hamount, hc, rfl, rfl, rfl, ?_⟩
        rw [hput]
        exact StateGet_StatePut_self allowance.Allowance.Id
          { Owner := req.Owner, Spender := c.Address, Symbol := req.Symbol,
            Group := req.Group, Amount := 0 } ctx.State.Allowances
      · rw [hput, StateGet_StatePut_of_ne allowance.Allowance.Id
          { Owner := req.Owner, Spender := c.Address, Symbol := req.Symbol,
            Group := req.Group,
            Amount := allowanceOf ctx.State
              ⟨req.Owner, c.Address, req.Symbol, req.Group⟩ - req.Amount }
          k ctx.State.Allowances (fun e => hk e.symm), hnone] at hsome
        cases hsome

/-- Witness of C13: the key (D, S) present before S transfers 300 from D is present after. -/
theorem C13_allowance_keys_witness :
    (StateGet allowance.Allowance.Id ⟨"D", "S", "@", ""⟩
        (contextOf "S" ledgerApproved).State.Allowances).isSome = true
      ∧ (StateGet allowance.Allowance.Id ⟨"D", "S", "@", ""⟩
          (allowance.TransferFrom specValidators (contextOf "S" ledgerApproved)
            ⟨"D", "R", "@", "", 300⟩).2.State.Allowances).isSome = true :=
  ⟨by decide,
    (C13_allowance_keys specValidators (contextOf "S" ledgerApproved)
      ⟨"D", "S", "@", ""⟩).2.2.1 ⟨"D", "R", "@", "", 300⟩ (by decide)⟩

/-- Counterexample to C13 as stated: X, whom D never approved, invokes `TransferFrom` with
Amount 0 from D to R.  The invocation succeeds, and the committed allowance store, empty
before, holds a record for (D, X, "@", "") with Amount 0 afterwards. -/
theorem C13_counterexample_zero_amount_creates_key :
    ledgerBootstrapped.Allowances = []
      ∧ StateGet allowance.Allowance.Id ⟨"D", "X", "@", ""⟩ ledgerBootstrapped.Allowances = none
      ∧ (Invoke (fun ctx => allowance.TransferFrom specValidators ctx ⟨"D", "R", "@", "", 0⟩)
          (.ok ⟨"X"⟩) ledgerBootstrapped).1 = .ok ⟨"D", "R", 0⟩
      ∧ (Invoke (fun ctx => allowance.TransferFrom specValidators ctx ⟨"D", "R", "@", "", 0⟩)
          (.ok ⟨"X"⟩) ledgerBootstrapped).2.1.Allowances = [⟨"D", "X", "@", "", 0⟩]
      ∧ StateGet allowance.Allowance.Id ⟨"D", "X", "@", ""⟩
          (Invoke (fun ctx => allowance.TransferFrom specValidators ctx ⟨"D", "R", "@", "", 0⟩)
            (.ok ⟨"X"⟩) ledgerBootstrapped).2.1.Allowances
        = some ⟨"D", "X", "@", "", 0⟩ := by
  refine ⟨rfl, by decide, rfl, by decide, by decide⟩

/-- A successful `TransferFrom` passed every check on the way. -/
theorem TransferFrom_ok_inv (V : Validators) (ctx : Context)
    (req : allowance.TransferFromRequest) (caller : account.AddressId)
    (r : allowance.TransferFromResponse)
    (hinv : ctx.Invoker = .ok caller)
    (hok : (allowance.TransferFrom V ctx req).1 = .ok r) :
    V.TransferFromRequest req = none
      ∧ V.AllowanceId ⟨req.Owner, caller.Address, req.Symbol, req.Group⟩ = none
      ∧ req.Amount ≤ allowanceOf ctx.State ⟨req.Owner, caller.Address, req.Symbol, req.Group⟩
      ∧ req.Amount.val ≤ balanceOf ctx.State ⟨req.Owner, req.Symbol, req.Group⟩ := by
  cases hreq : V.TransferFromRequest req with
  | some e => rw [TransferFrom_of_invalid V ctx req e hreq] at hok; cases hok
  | none =>
    cases hid : V.AllowanceId ⟨req.Owner, caller.Address, req.Symbol, req.Group⟩ with
    | some e => rw [TransferFrom_of_invalid_id V ctx req caller e hreq hinv hid] at hok; cases hok
    | none =>
      by_cases hlt : allowanceOf ctx.State ⟨req.Owner, caller.Address, req.Symbol, req.Group⟩
          < req.Amount
      · rw [TransferFrom_of_allowance_lt V ctx req caller hreq hinv hid hlt] at hok; cases hok
      · by_cases hb : balanceOf ctx.State ⟨req.Owner, req.Symbol, req.Group⟩ < req.Amount.val
        · rw [TransferFrom_of_insufficient_balance V ctx req caller hreq hinv hid
            (not_lt.mp hlt) hb] at hok
          cases hok
        · exact ⟨rfl, rfl, not_lt.mp hlt, not_lt.mp hb⟩

/-- The result of `TransferFrom` is determined by the validators, the invoker, the allowance
of (Owner, caller, Symbol, Group) and the owner's balance. -/
theorem TransferFrom_result_congr (V : Validators) (ctx ctx2 : Context)
    (req : allowance.TransferFromRequest) (caller : account.AddressId)
    (hinv : ctx.Invoker = .ok caller) (hinv2 : ctx2.Invoker = .ok caller)
    (hallow : allowanceOf ctx2.State ⟨req.Owner, caller.Address, req.Symbol, req.Group⟩
      = allowanceOf ctx.State ⟨req.Owner, caller.Address, req.Symbol, req.Group⟩)
    (hbal : balanceOf ctx2.State ⟨req.Owner, req.Symbol, req.Group⟩
      = balanceOf ctx.State ⟨req.Owner, req.Symbol, req.Group⟩) :
    (allowance.TransferFrom V ctx2 req).1 = (allowance.TransferFrom V ctx req).1 := by
  cases hreq : V.TransferFromRequest req with
  | some e =>
    rw [TransferFrom_of_invalid V ctx req e hreq, TransferFrom_of_invalid V ctx2 req e hreq]
  | none =>
    cases hid : V.AllowanceId ⟨req.Owner, caller.Address, req.Symbol, req.Group⟩ with
    | some e =>
      rw [TransferFrom_of_invalid_id V ctx req caller e hreq hinv hid,
        TransferFrom_of_invalid_id V ctx2 req caller e hreq hinv2 hid]
    | none =>
      by_cases hlt : allowanceOf ctx.State ⟨req.Owner, caller.Address, req.Symbol, req.Group⟩
          < req.Amount
      · rw [TransferFrom_of_allowance_lt V ctx req caller hreq hinv hid hlt,
          TransferFrom_of_allowance_lt V ctx2 req caller hreq hinv2 hid (by rw [hallow]; exact hlt),
          hallow]
      · by_cases hb : balanceOf ctx.State ⟨req.Owner, req.Symbol, req.Group⟩ < req.Amount.val
        · rw [TransferFrom_of_insufficient_balance V ctx req caller hreq hinv hid
              (not_lt.mp hlt) hb,
            TransferFrom_of_insufficient_balance V ctx2 req caller hreq hinv2 hid
              (by rw [hallow]; exact not_lt.mp hlt) (by rw [hbal]; exact hb)]
        · rw [TransferFrom_of_sufficient V ctx req caller hreq hinv hid
              (not_lt.mp hlt) (not_lt.mp hb),
            TransferFrom_of_sufficient V ctx2 req caller hreq hinv2 hid
              (by rw [hallow]; exact not_lt.mp hlt) (by rw [hbal]; exact not_lt.mp hb)]

/-- C14.  The spender of `TransferFrom` is the resolved address S of the caller; the request
has no spender field.  For every context, caller S and request: the stored entry of every
allowance key other than (Owner of the request, S, Symbol, Group) is after the call what it
was before; the result of the call is the same in any other context with the same caller,
the same entry under that one key and the same balances, whatever the other allowance
entries are; and when the call succeeds it has set exactly one event, `TransferredFrom`
with Owner and Recipient and Amount of the request and Spender S. -/
theorem C14_transferFrom_spender_is_caller (V : Validators) (ctx : Context)
    (req : allowance.TransferFromRequest) (caller : account.AddressId)
    (hinv : ctx.Invoker = .ok caller) :
    (∀ k : allowance.AllowanceId,
        k ≠ ⟨req.Owner, caller.Address, req.Symbol, req.Group⟩ →
        StateGet allowance.Allowance.Id k (allowance.TransferFrom V ctx req).2.State.Allowances
          = StateGet allowance.Allowance.Id k ctx.State.Allowances)
      ∧ (∀ ctx2 : Context, ctx2.Invoker = .ok caller →
          StateGet allowance.Allowance.Id ⟨req.Owner, caller.Address, req.Symbol, req.Group⟩
              ctx2.State.Allowances
            = StateGet allowance.Allowance.Id
                ⟨req.Owner, caller.Address, req.Symbol, req.Group⟩ ctx.State.Allowances →
          ctx2.State.Balances = ctx.State.Balances →
          (allowance.TransferFrom V ctx2 req).1 = (allowance.TransferFrom V ctx req).1)
      ∧ (∀ r : allowance.TransferFromResponse,
          (allowance.TransferFrom V ctx req).1 = .ok r →
          (allowance.TransferFrom V ctx req).2.Events
            = ctx.Events
              ++ [.TransferredFrom req.Owner caller.Address req.Recipient req.Amount]) := by
  refine ⟨?_, ?_, ?_⟩
  · intro k hk
    rcases TransferFrom_Allowances V ctx req with hsame | ⟨c, hc, _, _, _, hput⟩
    · rw [hsame]
    · rw [hinv] at hc
      cases hc
      rw [hput]
      exact StateGet_StatePut_of_ne allowance.Allowance.Id
        { Owner := req.Owner, Spender := caller.Address, Symbol := req.Symbol,
          Group := req.Group,
          Amount := allowanceOf ctx.State
            ⟨req.Owner, caller.Address, req.Symbol, req.Group⟩ - req.Amount }
        k ctx.State.Allowances (fun e => hk e.symm)
  · intro ctx2 hinv2 hentry hbals
    apply TransferFrom_result_congr V ctx ctx2 req caller hinv hinv2
    · exact allowanceOf_congr _ _ _ hentry
    · unfold balanceOf
      rw [hbals]
  · intro r hok
    obtain ⟨hreq, hid, hallow, hbal⟩ := TransferFrom_ok_inv V ctx req caller r hinv hok
    rw [TransferFrom_of_sufficient V ctx req caller hreq hinv hid hallow hbal]
    rfl

/-- Witness of C14: S transfers 300 from D to R; the event names S as spender. -/
theorem C14_transferFrom_spender_is_caller_witness :
    (allowance.TransferFrom specValidators (contextOf "S" ledgerApproved)
        ⟨"D", "R", "@", "", 300⟩).1 = .ok ⟨"D", "R", 300⟩
      ∧ (allowance.TransferFrom specValidators (contextOf "S" ledgerApproved)
          ⟨"D", "R", "@", "", 300⟩).2.Events
        = (contextOf "S" ledgerApproved).Events ++ [.TransferredFrom "D" "S" "R" 300] :=
  ⟨rfl,
    (C14_transferFrom_spender_is_caller specValidators (contextOf "S" ledgerApproved)
      ⟨"D", "R", "@", "", 300⟩ ⟨"S"⟩ rfl).2.2 ⟨"D", "R", 300⟩ rfl⟩

/-- C15.  When the validation of the request fails, each of `GetAllowance`, `Approve` and
`TransferFrom` returns that validation error itself and the context it received: whatever
the invoker (resolvable or not) and whatever the state, no key is written and no event is
set, and the result does not depend on either. -/
theorem C15_validation_failure (V : Validators) (ctx : Context) (err : Error) :
    (∀ id : allowance.AllowanceId, V.AllowanceId id = some err →
        allowance.GetAllowance V ctx id = (.error err, ctx))
      ∧ (∀ req : allowance.ApproveRequest, V.ApproveRequest req = some err →
          allowance.Approve V ctx req = (.error err, ctx))
      ∧ (∀ req : allowance.TransferFromRequest, V.TransferFromRequest req = some err →
          allowance.TransferFrom V ctx req = (.error err, ctx)) := by
  refine ⟨?_, ?_, ?_⟩
  · intro id h
    simp [allowance.GetAllowance, h]
  · intro req h
    simp [allowance.Approve, h]
  · intro req h
    simp [allowance.TransferFrom, h]

/-- Witness of C15: requests with an empty Owner, by an invoker whose identity does not
resolve. -/
theorem C15_validation_failure_witness :
    allowance.GetAllowance specValidators
        { Invoker := .error (.other "identity"), State := ledgerApproved, Events := [] }
        ⟨"", "S", "@", ""⟩
        = (.error (.other "validation"),
            { Invoker := .error (.other "identity"), State := ledgerApproved, Events := [] })
      ∧ allowance.Approve specValidators
          { Invoker := .error (.other "identity"), State := ledgerApproved, Events := [] }
          ⟨"", "S", "@", "", 500⟩
        = (.error (.other "validation"),
            { Invoker := .error (.other "identity"), State := ledgerApproved, Events := [] })
      ∧ allowance.TransferFrom specValidators
          { Invoker := .error (.other "identity"), State := ledgerApproved, Events := [] }
          ⟨"", "R", "@", "", 300⟩
        = (.error (.other "validation"),
            { Invoker := .error (.other "identity"), State := ledgerApproved, Events := [] }) :=
  have h := C15_validation_failure specValidators
    { Invoker := .error (.other "identity"), State := ledgerApproved, Events := [] }
    (.other "validation")
  ⟨h.1 ⟨"", "S", "@", ""⟩ (by decide), h.2.1 ⟨"", "S", "@", "", 500⟩ (by decide),
    h.2.2 ⟨"", "R", "@", "", 300⟩ (by decide)⟩

/-- C17.  A successful `Approve`, that is a valid request by the owner, leaves the stored
entry of every allowance key other than (Owner, Spender, Symbol, Group) of the request as it
was, stores the record of the request under that key, leaves every balance and token type
as it was, and sets exactly one event, `Approved` with Owner, Spender and Amount of the
request. -/
theorem C17_approve_frame (V : Validators) (ctx : Context)
    (req : allowance.ApproveRequest) (caller : account.AddressId)
    (hreq : V.ApproveRequest req = none)
    (hinv : ctx.Invoker = .ok caller)
    (howner : caller.Address = req.Owner) :
    (∀ k : allowance.AllowanceId, k ≠ ⟨req.Owner, req.Spender, req.Symbol, req.Group⟩ →
        StateGet allowance.Allowance.Id k (allowance.Approve V ctx req).2.State.Allowances
          = StateGet allowance.Allowance.Id k ctx.State.Allowances)
      ∧ StateGet allowance.Allowance.Id ⟨req.Owner, req.Spender, req.Symbol, req.Group⟩
          (allowance.Approve V ctx req).2.State.Allowances
        = some { Owner := req.Owner, Spender := req.Spender, Symbol := req.Symbol,
                 Group := req.Group, Amount := req.Amount }
      ∧ (allowance.Approve V ctx req).2.State.Balances = ctx.State.Balances
      ∧ (allowance.Approve V ctx req).2.State.Tokens = ctx.State.Tokens
      ∧ (allowance.Approve V ctx req).2.Events
        = ctx.Events ++ [.Approved req.Owner req.Spender req.Amount] := by
  rw [Approve_of_owner V ctx req caller hreq hinv howner]
  refine ⟨?_, ?_, rfl, rfl, rfl⟩
  · intro k hk
    exact StateGet_StatePut_of_ne allowance.Allowance.Id
      { Owner := req.Owner, Spender := req.Spender, Symbol := req.Symbol,
        Group := req.Group, Amount := req.Amount }
      k ctx.State.Allowances (fun e => hk e.symm)
  · exact StateGet_StatePut_self allowance.Allowance.Id
      { Owner := req.Owner, Spender := req.Spender, Symbol := req.Symbol,
        Group := req.Group, Amount := req.Amount } ctx.State.Allowances

/-- Witness of C17: D approves T for 70 next to the allowance S already has. -/
theorem C17_approve_frame_witness :
    StateGet allowance.Allowance.Id ⟨"D", "S", "@", ""⟩
        (allowance.Approve specValidators (contextOf "D" ledgerApproved)
          ⟨"D", "T", "@", "", 70⟩).2.State.Allowances
        = StateGet allowance.Allowance.Id ⟨"D", "S", "@", ""⟩
            (contextOf "D" ledgerApproved).State.Allowances
      ∧ (allowance.Approve specValidators (contextOf "D" ledgerApproved)
          ⟨"D", "T", "@", "", 70⟩).2.Events
        = (contextOf "D" ledgerApproved).Events ++ [.Approved "D" "T" 70] :=
  have h := C17_approve_frame specValidators (contextOf "D" ledgerApproved)
    ⟨"D", "T", "@", "", 70⟩ ⟨"D"⟩ (by decide) rfl rfl
  ⟨h.1 ⟨"D", "S", "@", ""⟩ (by decide), h.2.2.2.2⟩

/-- `GetAllowance` reports the same in two contexts in which the id has the same allowance. -/
theorem GetAllowance_result_congr (V : Validators) (ctx ctx2 : Context)
    (id : allowance.AllowanceId)
    (h : allowanceOf ctx2.State id = allowanceOf ctx.State id) :
    (allowance.GetAllowance V ctx2 id).1 = (allowance.GetAllowance V ctx id).1 := by
  cases hid : V.AllowanceId id with
  | some e => simp [allowance.GetAllowance, hid]
  | none => rw [GetAllowance_eq V ctx id hid, GetAllowance_eq V ctx2 id hid, h]

/-- C18.  A valid `TransferFrom` request with Amount 0 by a resolved caller does not fail with
`ErrAllowanceInsufficient`, also for a pair that was never approved: it succeeds.  After it,
`GetAllowance` returns for every id what it returned before, and every balance is what it
was before. -/
theorem C18_zero_amount_noop (V : Validators) (ctx : Context)
    (req : allowance.TransferFromRequest) (caller : account.AddressId)
    (hreq : V.TransferFromRequest req = none)
    (hinv : ctx.Invoker = .ok caller)
    (hid : V.AllowanceId ⟨req.Owner, caller.Address, req.Symbol, req.Group⟩ = none)
    (hzero : req.Amount = 0) :
    failsWith (allowance.TransferFrom V ctx req).1 .ErrAllowanceInsufficient = false
      ∧ (allowance.TransferFrom V ctx req).1
        = .ok { Owner := req.Owner, Recipient := req.Recipient, Amount := 0 }
      ∧ (∀ id : allowance.AllowanceId,
          (allowance.GetAllowance V (allowance.TransferFrom V ctx req).2 id).1
            = (allowance.GetAllowance V ctx id).1)
      ∧ (∀ id : balance.BalanceId,
          balanceOf (allowance.TransferFrom V ctx req).2.State id = balanceOf ctx.State id) := by
  have hallow : req.Amount
      ≤ allowanceOf ctx.State ⟨req.Owner, caller.Address, req.Symbol, req.Group⟩ := by
    rw [hzero]; exact Fin.zero_le _
  have hbal : req.Amount.val ≤ balanceOf ctx.State ⟨req.Owner, req.Symbol, req.Group⟩ := by
    rw [hzero]; exact Nat.zero_le _
  have hval : req.Amount.val = 0 := by rw [hzero]; rfl
  have h := TransferFrom_of_sufficient V ctx req caller hreq hinv hid hallow hbal
  refine ⟨?_, ?_, ?_, ?_⟩
  · rw [h]; rfl
  · rw [h, hzero]
  · intro id
    apply GetAllowance_result_congr
    rcases (TransferFrom_allowanceOf V ctx req id) with hsame | ⟨_, _, hsum⟩
    · exact hsame
    · apply Fin.ext
      rw [hval] at hsum
      exact hsum
  · intro id
    rw [h]
    show balanceOf (balance.Store.Put _ _ _).State id = _
    rw [hval]
    by_cases h2 : id = ⟨req.Recipient, req.Symbol, req.Group⟩
    · subst h2
      rw [balanceOf_Put_self]
      rfl
    · rw [balanceOf_Put_of_ne _ _ _ _ (Ne.symm h2)]
      by_cases h1 : id = ⟨req.Owner, req.Symbol, req.Group⟩
      · subst h1
        rw [balanceOf_Put_self]; rfl
      · exact balanceOf_Put_of_ne _ _ _ _ (Ne.symm h1)

/-- Witness of C18: X, whom D never approved, transfers 0 from D to R. -/
theorem C18_zero_amount_noop_witness :
    (allowance.TransferFrom specValidators (contextOf "X" ledgerBootstrapped)
        ⟨"D", "R", "@", "", 0⟩).1 = .ok ⟨"D", "R", 0⟩
      ∧ (allowance.GetAllowance specValidators
          (allowance.TransferFrom specValidators (contextOf "X" ledgerBootstrapped)
            ⟨"D", "R", "@", "", 0⟩).2 ⟨"D", "X", "@", ""⟩).1
        = (allowance.GetAllowance specValidators (contextOf "X" ledgerBootstrapped)
            ⟨"D", "X", "@", ""⟩).1
      ∧ balanceOf (allowance.TransferFrom specValidators (contextOf "X" ledgerBootstrapped)
          ⟨"D", "R", "@", "", 0⟩).2.State ⟨"R", "@", ""⟩
        = balanceOf (contextOf "X" ledgerBootstrapped).State ⟨"R", "@", ""⟩ :=
  have h := C18_zero_amount_noop specValidators (contextOf "X" ledgerBootstrapped)
    ⟨"D", "R", "@", "", 0⟩ ⟨"X"⟩ (by decide) rfl (by decide) rfl
  ⟨h.2.1, h.2.2.1 ⟨"D", "X", "@", ""⟩, h.2.2.2 ⟨"R", "@", ""⟩⟩

/-! ## Spending along a sequence of invocations -/

theorem Init_Allowances (ctx : Context) :
    (erc20.Init ctx).2.State.Allowances = ctx.State.Allowances := by
  cases hget : StateGet config.TokenType.Id (erc20.Token.Symbol, erc20.Token.Group)
      ctx.State.Tokens with
  | some t =>
    rw [Init_of_present ctx (by rw [hget]; rfl)]
  | none =>
    cases hinv : ctx.Invoker with
    | error e =>
      simp [erc20.Init, config.CreateDefaultToken, hget, account.GetInvokerAddress, hinv]
    | ok deployer =>
      rw [Init_of_absent ctx deployer hinv hget]
      rfl

theorem Invoke_state {α : Type} (handler : Context → Except Error α × Context)
    (invoker : Except Error account.AddressId) (w : Ledger) :
    ((Invoke handler invoker w).1.toBool = false ∧ (Invoke handler invoker w).2.1 = w)
      ∨ ((Invoke handler invoker w).1.toBool = true
          ∧ (∃ r, (handler { Invoker := invoker, State := w, Events := [] }).1 = .ok r)
          ∧ (Invoke handler invoker w).2.1
            = (handler { Invoker := invoker, State := w, Events := [] }).2.State) := by
  cases hres : (handler { Invoker := invoker, State := w, Events := [] }).1 with
  | error err =>
    left
    rw [Invoke_of_error handler invoker w err hres]
    exact ⟨rfl, rfl⟩
  | ok r =>
    right
    rw [Invoke_of_ok handler invoker w r hres]
    exact ⟨rfl, ⟨r, rfl⟩, rfl⟩

/-- One invocation that is not a successful `Approve` on the key `k` lowers the allowance of
`k` by exactly what it spends from it. -/
theorem allowanceOf_outcome (V : Validators) (w : Ledger) (t : Transaction)
    (k : allowance.AllowanceId) (hno : t.approves V w k = false) :
    (allowanceOf (t.outcome V w).2 k).val + t.spent V w k = (allowanceOf w k).val := by
  obtain ⟨invoker, op⟩ := t
  cases op with
  | GetAllowance id =>
    have hs : Transaction.spent V w ⟨invoker, .GetAllowance id⟩ k = 0 := by
      simp [Transaction.spent]
    rw [hs]
    show (allowanceOf
      (Invoke (fun ctx => allowance.GetAllowance V ctx id) invoker w).2.1 k).val + 0 = _
    rcases Invoke_state (fun ctx => allowance.GetAllowance V ctx id) invoker w with
      ⟨_, h⟩ | ⟨_, _, h⟩
    · rw [h]; rfl
    · rw [h, GetAllowance_context]; rfl
  | Init =>
    have hs : Transaction.spent V w ⟨invoker, .Init⟩ k = 0 := by
      simp [Transaction.spent]
    rw [hs]
    show (allowanceOf (Invoke erc20.Init invoker w).2.1 k).val + 0 = _
    rcases Invoke_state erc20.Init invoker w with ⟨_, h⟩ | ⟨_, _, h⟩
    · rw [h]; rfl
    · rw [h]
      have := allowanceOf_congr
        (erc20.Init { Invoker := invoker, State := w, Events := [] }).2.State w k
        (by rw [Init_Allowances])
      rw [this]; rfl
  | Approve req =>
    have hs : Transaction.spent V w ⟨invoker, .Approve req⟩ k = 0 := by
      simp [Transaction.spent]
    rw [hs]
    show (allowanceOf (Invoke (fun ctx => allowance.Approve V ctx req) invoker w).2.1 k).val
      + 0 = _
    rcases Invoke_state (fun ctx => allowance.Approve V ctx req) invoker w with
      ⟨_, h⟩ | ⟨hok, ⟨r, hr⟩, h⟩
    · rw [h]; rfl
    · have hk : k ≠ ⟨req.Owner, req.Spender, req.Symbol, req.Group⟩ := by
        intro e
        have : Transaction.approves V w ⟨invoker, .Approve req⟩ k = true := by
          simp only [Transaction.approves, Transaction.outcome, hok, e]
          simp
        rw [this] at hno
        cases hno
      rcases Approve_unchanged_or_owner V { Invoker := invoker, State := w, Events := [] } req
        with ⟨⟨err, herr⟩, _⟩ | ⟨c, hc, howner, hreq⟩
      · rw [herr] at hr; cases hr
      · rw [h, Approve_of_owner V _ req c hreq hc howner]
        have := allowanceOf_Put_of_ne { Invoker := invoker, State := w, Events := [] }
          { Owner := req.Owner, Spender := req.Spender, Symbol := req.Symbol,
            Group := req.Group, Amount := req.Amount } k (fun e => hk e.symm)
        rw [Nat.add_zero]
        exact congrArg Fin.val this
  | TransferFrom req =>
    rcases Invoke_state (fun ctx => allowance.TransferFrom V ctx req) invoker w with
      ⟨hfail, h⟩ | ⟨hok, ⟨r, hr⟩, h⟩
    · have hs : Transaction.spent V w ⟨invoker, .TransferFrom req⟩ k = 0 := by
        cases invoker with
        | error e => simp [Transaction.spent]
        | ok caller => simp [Transaction.spent, Transaction.outcome, hfail]
      rw [hs]
      show (allowanceOf
        (Invoke (fun ctx => allowance.TransferFrom V ctx req) invoker w).2.1 k).val + 0 = _
      rw [h]; rfl
    · cases invoker with
      | error e =>
        cases hreq : V.TransferFromRequest req with
        | some e2 =>
          rw [TransferFrom_of_invalid V _ req e2 hreq] at hr; cases hr
        | none =>
          rw [TransferFrom_of_unresolved V _ req e hreq rfl] at hr; cases hr
      | ok caller =>
        obtain ⟨hreq, hid, hallow, hbal⟩ := TransferFrom_ok_inv V
          { Invoker := .ok caller, State := w, Events := [] } req caller r rfl hr
        have hstate := TransferFrom_of_sufficient V
          { Invoker := .ok caller, State := w, Events := [] } req caller hreq rfl hid hallow hbal
        show (allowanceOf
          (Invoke (fun ctx => allowance.TransferFrom V ctx req) (.ok caller) w).2.1 k).val
          + _ = _
        rw [h, hstate]
        simp only [State_Event_Set, allowanceOf_Store_Put]
        by_cases hk : k = ⟨req.Owner, caller.Address, req.Symbol, req.Group⟩
        · subst hk
          have hs : Transaction.spent V w ⟨.ok caller, .TransferFrom req⟩
              ⟨req.Owner, caller.Address, req.Symbol, req.Group⟩ = req.Amount.val := by
            simp [Transaction.spent, Transaction.outcome, hok]
          rw [hs]
          have hput := allowanceOf_Put_self { Invoker := .ok caller, State := w, Events := [] }
            { Owner := req.Owner, Spender := caller.Address, Symbol := req.Symbol,
              Group := req.Group,
              Amount := allowanceOf w ⟨req.Owner, caller.Address, req.Symbol, req.Group⟩
                - req.Amount }
          have hput2 : allowanceOf
              (allowance.State.Put { Invoker := .ok caller, State := w, Events := [] }
                { Owner := req.Owner, Spender := caller.Address, Symbol := req.Symbol,
                  Group := req.Group,
                  Amount := allowanceOf w ⟨req.Owner, caller.Address, req.Symbol, req.Group⟩
                    - req.Amount }).State
              (⟨req.Owner, caller.Address, req.Symbol, req.Group⟩ : allowance.AllowanceId)
              = allowanceOf w ⟨req.Owner, caller.Address, req.Symbol, req.Group⟩
                - req.Amount := hput
          have hsub := Fin.coe_sub_iff_le.mpr hallow
          have hle : req.Amount.val
              ≤ (allowanceOf w ⟨req.Owner, caller.Address, req.Symbol, req.Group⟩).val :=
            hallow
          have hw : ({ Invoker := .ok caller, State := w, Events := [] } : Context).State = w :=
            rfl
          rw [hw] at hsub
          rw [hput2, hsub]
          omega
        · have hs : Transaction.spent V w ⟨.ok caller, .TransferFrom req⟩ k = 0 := by
            have hnot : ¬ (caller.Address = k.Spender ∧ req.Owner = k.Owner
                ∧ req.Symbol = k.Symbol ∧ req.Group = k.Group
                ∧ (Transaction.outcome V w ⟨.ok caller, .TransferFrom req⟩).1 = true) := by
              rintro ⟨h1, h2, h3, h4, _⟩
              apply hk
              cases k
              simp only [allowance.AllowanceId.mk.injEq]
              exact ⟨h2.symm, h1.symm, h3.symm, h4.symm⟩
            simp only [Transaction.spent, hnot, if_false]
          rw [hs, Nat.add_zero]
          exact congrArg Fin.val
            (allowanceOf_Put_of_ne { Invoker := .ok caller, State := w, Events := [] }
              { Owner := req.Owner, Spender := caller.Address, Symbol := req.Symbol,
                Group := req.Group,
                Amount := allowanceOf w ⟨req.Owner, caller.Address, req.Symbol, req.Group⟩
                  - req.Amount } k (fun e => hk e.symm))

theorem allowanceOf_execute (V : Validators) (k : allowance.AllowanceId)
    (ts : List Transaction) (w : Ledger) (hno : anyApprove V k w ts = false) :
    (allowanceOf (execute V w ts) k).val + totalSpent V k w ts = (allowanceOf w k).val := by
  induction ts generalizing w with
  | nil => rfl
  | cons t rest ih =>
    have hsplit : t.approves V w k = false ∧ anyApprove V k (t.outcome V w).2 rest = false := by
      have : (t.approves V w k || anyApprove V k (t.outcome V w).2 rest) = false := hno
      simpa using this
    have h1 := allowanceOf_outcome V w t k hsplit.1
    have h2 := ih (t.outcome V w).2 hsplit.2
    show (allowanceOf (execute V (t.outcome V w).2 rest) k).val
      + (t.spent V w k + totalSpent V k (t.outcome V w).2 rest) = _
    omega

/-- C16.  From any state, along any finite sequence of invocations (`GetAllowance`,
`Approve`, `TransferFrom`, `Init`, by any callers, successful or failed) that contains no
successful `Approve` on the key (O, S, sym, grp), the Amounts of the successful `TransferFrom`
calls made by caller S with Owner O on (sym, grp) sum to at most the allowance a of the key
in the initial state, and the allowance of the key after the sequence is a minus that sum. -/
theorem C16_cumulative_spending_bound (V : Validators) (w : Ledger) (ts : List Transaction)
    (k : allowance.AllowanceId) (hno : anyApprove V k w ts = false) :
    totalSpent V k w ts ≤ (allowanceOf w k).val
      ∧ (allowanceOf (execute V w ts) k).val = (allowanceOf w k).val - totalSpent V k w ts := by
  have h := allowanceOf_execute V k ts w hno
  constructor <;> omega

/-- Witness of C16: under an allowance of 500, S spends 300 and 200, a request in between is
refused; the sum spent is 500 and the allowance left is 0. -/
theorem C16_cumulative_spending_bound_witness :
    anyApprove specValidators ⟨"D", "S", "@", ""⟩ ledgerApproved sequenceSpending = false
      ∧ totalSpent specValidators ⟨"D", "S", "@", ""⟩ ledgerApproved sequenceSpending = 500
      ∧ totalSpent specValidators ⟨"D", "S", "@", ""⟩ ledgerApproved sequenceSpending
        ≤ (allowanceOf ledgerApproved ⟨"D", "S", "@", ""⟩).val
      ∧ (allowanceOf (execute specValidators ledgerApproved sequenceSpending)
          ⟨"D", "S", "@", ""⟩).val
        = (allowanceOf ledgerApproved ⟨"D", "S", "@", ""⟩).val
          - totalSpent specValidators ⟨"D", "S", "@", ""⟩ ledgerApproved sequenceSpending :=
  ⟨by decide, by decide,
    C16_cumulative_spending_bound specValidators ledgerApproved sequenceSpending
      ⟨"D", "S", "@", ""⟩ (by decide)⟩
